import Mathlib

/-!
Space Defender: a shallow embedding of `src/game.js`.

The class `SpaceDefenderGame` is embedded as a record of its fields and every
method as a function from game to game.  JavaScript numbers that take part in
real arithmetic (positions, sizes, speeds, alpha) are rationals; the integer
counters (`score`, `lives`, `level`, millisecond clocks) are integers.

Conventions of the embedding:

* `Math.random()` is an external stream `rnd : ℕ → ℚ`; the field `randomCalls`
  counts the draws made so far, so the next draw is `rnd g.randomCalls`.
* `Date.now()` is an argument of `shoot`.
* The DOM (screens, labels, the drawing context) and the handles of the
  browser's frame and timer queues are collaborators outside the embedding:
  `updateUI`, `showScreen`, `hideAllScreens`, `render`, `requestAnimationFrame`
  and `cancelAnimationFrame` leave every embedded field unchanged.
* `Array.prototype.filter` with a mutating callback is a recursion over the
  list, head first, threading the game through the calls.
* A counting-down `for` loop over indices is a recursion whose argument `n + 1`
  stands for the loop variable having value `n`.
* The listeners and the two callbacks (animation frame, spawn timer) are the
  constructors of `Action`; a session is a list of actions run by `runTrace`.
-/

namespace SpaceDefender

/-! ## Data model -/

/-- Values of `gameState`: start, playing, paused, gameOver. -/
inductive Phase where
  | start
  | playing
  | paused
  | gameOver
  deriving DecidableEq, Repr

/-- Values of `difficulty`. -/
inductive Difficulty where
  | easy
  | normal
  | hard
  deriving DecidableEq, Repr

/-- Colours are either fixed hex strings or `hsl(h, s%, l%)` template strings. -/
inductive Color where
  | hex (code : String)
  | hsl (hue : ℚ) (saturation lightness : ℕ)
  deriving DecidableEq, Repr

/-- The four fields `isColliding` reads from its arguments. -/
structure Rect where
  x : ℚ
  y : ℚ
  width : ℚ
  height : ℚ
  deriving DecidableEq, Repr

/-- Object built by `createPlayer`. -/
structure Player extends Rect where
  speed : ℚ
  color : Color
  deriving DecidableEq, Repr

/-- Object pushed by `shoot`. -/
structure Bullet extends Rect where
  speed : ℚ
  color : Color
  deriving DecidableEq, Repr

/-- Object pushed by the spawn timer. -/
structure Enemy extends Rect where
  speed : ℚ
  color : Color
  health : ℚ
  deriving DecidableEq, Repr

/-- Object pushed by `createExplosion`. -/
structure Particle where
  x : ℚ
  y : ℚ
  vx : ℚ
  vy : ℚ
  life : ℚ
  maxLife : ℚ
  alpha : ℚ
  color : Color
  deriving DecidableEq, Repr

/-- Shape read by `updatePowerUps`; nothing in the source ever creates one. -/
structure PowerUp extends Rect where
  speed : ℚ
  color : Color
  deriving DecidableEq, Repr

/-- The two attributes of the canvas element the game logic reads. -/
structure Canvas where
  width : ℚ
  height : ℚ
  deriving DecidableEq, Repr

/-- Fields of `SpaceDefenderGame`.  `keys` lists the key codes currently mapped
to `true`; `randomCalls` is the position in the `Math.random` stream. -/
structure SpaceDefenderGame where
  canvas : Canvas
  gameState : Phase
  score : ℤ
  lives : ℤ
  level : ℤ
  gameSpeed : ℚ
  player : Player
  bullets : List Bullet
  enemies : List Enemy
  particles : List Particle
  powerUps : List PowerUp
  keys : List String
  lastShot : ℤ
  shootCooldown : ℤ
  difficulty : Difficulty
  muted : Bool
  lastTime : ℚ
  randomCalls : ℕ
  deriving DecidableEq, Repr

/-! ## Methods -/

/-- Source `isColliding(rect1, rect2)`, lines 294-299. -/
def isColliding (rect1 rect2 : Rect) : Bool :=
  decide (rect1.x < rect2.x + rect2.width) &&
  decide (rect1.x + rect1.width > rect2.x) &&
  decide (rect1.y < rect2.y + rect2.height) &&
  decide (rect1.y + rect1.height > rect2.y)

/-- Source `createPlayer()`, lines 88-97. -/
def createPlayer (g : SpaceDefenderGame) : SpaceDefenderGame :=
  { g with player :=
      { x := g.canvas.width / 2 - 25
        y := g.canvas.height - 80
        width := 50
        height := 40
        speed := 5
        color := Color.hex "#00ffff" } }

/-- Source `gameOver()`, lines 324-331: of the embedded fields only `gameState`
changes. -/
def gameOver (g : SpaceDefenderGame) : SpaceDefenderGame :=
  { g with gameState := Phase.gameOver }

/-- Source `updatePlayer()`, lines 173-180.  The second guard reads the `x`
the first statement may have written. -/
def updatePlayer (g : SpaceDefenderGame) : SpaceDefenderGame :=
  let g1 :=
    if "ArrowLeft" ∈ g.keys ∧ g.player.x > 0 then
      { g with player := { g.player with x := g.player.x - g.player.speed } }
    else g
  if "ArrowRight" ∈ g1.keys ∧ g1.player.x < g1.canvas.width - g1.player.width then
    { g1 with player := { g1.player with x := g1.player.x + g1.player.speed } }
  else g1

/-- Source `shoot()`, lines 182-195, with `now = Date.now()`. -/
def shoot (now : ℤ) (g : SpaceDefenderGame) : SpaceDefenderGame :=
  if now - g.lastShot > g.shootCooldown then
    { g with
      bullets := g.bullets ++
        [{ x := g.player.x + g.player.width / 2 - 2
           y := g.player.y
           width := 4
           height := 10
           speed := 8
           color := Color.hex "#00ff00" }]
      lastShot := now }
  else g

/-- Source `updateBullets()`, lines 197-202. -/
def updateBullets (g : SpaceDefenderGame) : SpaceDefenderGame :=
  let moved := g.bullets.map (fun bullet => { bullet with y := bullet.y - bullet.speed })
  { g with bullets := moved.filter (fun bullet => decide (bullet.y > -bullet.height)) }

/-- Delay computed by `spawnEnemies()`, line 207. -/
def spawnRate (level : ℤ) : ℤ := max (500 - level * 50) 200

/-- Callback armed by `spawnEnemies()`, lines 209-222.  The three draws are
made in the order the object literal lists them: x, speed, colour. -/
def spawnCallback (rnd : ℕ → ℚ) (g : SpaceDefenderGame) : SpaceDefenderGame :=
  if g.gameState = Phase.playing then
    { g with
      enemies := g.enemies ++
        [{ x := rnd g.randomCalls * (g.canvas.width - 40)
           y := -40
           width := 40
           height := 30
           speed := (1 + rnd (g.randomCalls + 1) * 2) * g.gameSpeed
           color := Color.hsl (rnd (g.randomCalls + 2) * 360) 70 50
           health := 1 }]
      randomCalls := g.randomCalls + 3 }
  else g

/-- The callback of the `filter` in `updateEnemies()`, lines 226-239, run over
the remaining enemies.  Returns the enemies kept and the game as the callbacks
left it (`lives`, `gameState`). -/
def updateEnemiesFilter : List Enemy → SpaceDefenderGame → List Enemy × SpaceDefenderGame
  | [], g => ([], g)
  | enemy :: rest, g =>
    let enemy1 : Enemy := { enemy with y := enemy.y + enemy.speed }
    if enemy1.y > g.canvas.height then
      let g1 := { g with lives := g.lives - 1 }
      let g2 := if g1.lives ≤ 0 then gameOver g1 else g1
      updateEnemiesFilter rest g2
    else
      let r := updateEnemiesFilter rest g
      (enemy1 :: r.1, r.2)

/-- Source `updateEnemies()`, lines 225-240. -/
def updateEnemies (g : SpaceDefenderGame) : SpaceDefenderGame :=
  let r := updateEnemiesFilter g.enemies g
  { r.2 with enemies := r.1 }

/-- Source `updateParticles()`, lines 242-250. -/
def updateParticles (g : SpaceDefenderGame) : SpaceDefenderGame :=
  let moved := g.particles.map (fun particle =>
    { particle with
      x := particle.x + particle.vx
      y := particle.y + particle.vy
      life := particle.life - 1
      alpha := (particle.life - 1) / particle.maxLife })
  { g with particles := moved.filter (fun particle => decide (particle.life > 0)) }

/-- Source `updatePowerUps()`, lines 252-257. -/
def updatePowerUps (g : SpaceDefenderGame) : SpaceDefenderGame :=
  let moved := g.powerUps.map (fun powerUp => { powerUp with y := powerUp.y + powerUp.speed })
  { g with powerUps := moved.filter (fun powerUp => decide (powerUp.y < g.canvas.height)) }

/-- The object literal pushed by `createExplosion`, lines 303-312, when `c`
draws have been made: vx, vy and the hue are drawn in that order. -/
def explosionParticle (rnd : ℕ → ℚ) (x y : ℚ) (c : ℕ) : Particle :=
  { x := x
    y := y
    vx := (rnd c - 1 / 2) * 6
    vy := (rnd (c + 1) - 1 / 2) * 6
    life := 30
    maxLife := 30
    alpha := 1
    color := Color.hsl (rnd (c + 2) * 60 + 15) 100 50 }

/-- The `for` loop of `createExplosion`, lines 302-313, with `n` iterations
left. -/
def createExplosionLoop (rnd : ℕ → ℚ) (x y : ℚ) : ℕ → SpaceDefenderGame → SpaceDefenderGame
  | 0, g => g
  | n + 1, g =>
    createExplosionLoop rnd x y n
      { g with
        particles := g.particles ++ [explosionParticle rnd x y g.randomCalls]
        randomCalls := g.randomCalls + 3 }

/-- Source `createExplosion(x, y)`, lines 301-314. -/
def createExplosion (rnd : ℕ → ℚ) (x y : ℚ) (g : SpaceDefenderGame) : SpaceDefenderGame :=
  createExplosionLoop rnd x y 8 g

/-- Inner loop of the bullet-enemy pass, lines 262-273, for the bullet at index
`i`; the argument `j + 1` is the loop variable at `j`.  On a hit the loop
breaks.  Indices are always in range when called from the outer loop (an
out-of-range read would throw in the source; the embedding stops the scan). -/
def bulletEnemyInner (rnd : ℕ → ℚ) (i : ℕ) : ℕ → SpaceDefenderGame → SpaceDefenderGame
  | 0, g => g
  | j + 1, g =>
    match g.bullets[i]?, g.enemies[j]? with
    | some bullet, some enemy =>
      if isColliding bullet.toRect enemy.toRect then
        let g1 := createExplosion rnd (enemy.x + enemy.width / 2) (enemy.y + enemy.height / 2) g
        { g1 with
          bullets := g1.bullets.eraseIdx i
          enemies := g1.enemies.eraseIdx j
          score := g1.score + 10 }
      else bulletEnemyInner rnd i j g
    | _, _ => g

/-- Outer loop of the bullet-enemy pass, lines 261-274; the argument `i + 1` is
the loop variable at `i`.  The inner loop starts at `enemies.length - 1`. -/
def bulletEnemyOuter (rnd : ℕ → ℚ) : ℕ → SpaceDefenderGame → SpaceDefenderGame
  | 0, g => g
  | i + 1, g => bulletEnemyOuter rnd i (bulletEnemyInner rnd i g.enemies.length g)

/-- First half of `checkCollisions()`, lines 260-274. -/
def bulletEnemyCollisions (rnd : ℕ → ℚ) (g : SpaceDefenderGame) : SpaceDefenderGame :=
  bulletEnemyOuter rnd g.bullets.length g

/-- Loop of the player-enemy pass, lines 277-291; the argument `i + 1` is the
loop variable at `i`.  On a hit the loop breaks. -/
def playerEnemyLoop (rnd : ℕ → ℚ) : ℕ → SpaceDefenderGame → SpaceDefenderGame
  | 0, g => g
  | i + 1, g =>
    match g.enemies[i]? with
    | some enemy =>
      if isColliding g.player.toRect enemy.toRect then
        let g1 := createExplosion rnd (enemy.x + enemy.width / 2) (enemy.y + enemy.height / 2) g
        let g2 := { g1 with enemies := g1.enemies.eraseIdx i, lives := g1.lives - 1 }
        if g2.lives ≤ 0 then gameOver g2 else g2
      else playerEnemyLoop rnd i g
    | none => g

/-- Second half of `checkCollisions()`, lines 276-291. -/
def playerEnemyCollisions (rnd : ℕ → ℚ) (g : SpaceDefenderGame) : SpaceDefenderGame :=
  playerEnemyLoop rnd g.enemies.length g

/-- Source `checkCollisions()`, lines 259-292. -/
def checkCollisions (rnd : ℕ → ℚ) (g : SpaceDefenderGame) : SpaceDefenderGame :=
  playerEnemyCollisions rnd (bulletEnemyCollisions rnd g)

/-- Source `checkLevelProgression()`, lines 316-322. -/
def checkLevelProgression (g : SpaceDefenderGame) : SpaceDefenderGame :=
  let scoreThreshold := g.level * 100
  if g.score ≥ scoreThreshold then { g with level := g.level + 1 } else g

/-- Source `update(deltaTime)`, lines 163-171; `deltaTime` is never read. -/
def update (rnd : ℕ → ℚ) (g : SpaceDefenderGame) : SpaceDefenderGame :=
  checkLevelProgression
    (checkCollisions rnd
      (updatePowerUps (updateParticles (updateEnemies (updateBullets (updatePlayer g))))))

/-- Source `gameLoop(currentTime = 0)`, lines 151-161. -/
def gameLoop (rnd : ℕ → ℚ) (currentTime : ℚ) (g : SpaceDefenderGame) : SpaceDefenderGame :=
  if g.gameState ≠ Phase.playing then g
  else update rnd { g with lastTime := currentTime }

/-- Source `startGame()`, lines 99-114.  `gameLoop()` is called without an
argument, so `currentTime` takes its default 0; `spawnEnemies()` only arms the
spawn timer. -/
def startGame (rnd : ℕ → ℚ) (g : SpaceDefenderGame) : SpaceDefenderGame :=
  gameLoop rnd 0
    (createPlayer
      { g with
        gameState := Phase.playing
        score := 0
        lives := 3
        level := 1
        bullets := []
        enemies := []
        particles := []
        powerUps := [] })

/-- Source `restartGame()`, lines 116-118. -/
def restartGame (rnd : ℕ → ℚ) (g : SpaceDefenderGame) : SpaceDefenderGame :=
  startGame rnd g

/-- Source `togglePause()`, lines 120-132.  Resuming calls `gameLoop()` with
its default argument. -/
def togglePause (rnd : ℕ → ℚ) (g : SpaceDefenderGame) : SpaceDefenderGame :=
  if g.gameState = Phase.playing then
    { g with gameState := Phase.paused }
  else if g.gameState = Phase.paused then
    gameLoop rnd 0 { g with gameState := Phase.playing }
  else g

/-- Source `toggleMute()`, lines 134-137. -/
def toggleMute (g : SpaceDefenderGame) : SpaceDefenderGame :=
  { g with muted := !g.muted }

/-- Source `updateDifficulty()`, lines 139-149, after the change handler has
stored the selected value in `difficulty`. -/
def updateDifficulty (g : SpaceDefenderGame) : SpaceDefenderGame :=
  match g.difficulty with
  | Difficulty.easy => { g with gameSpeed := 7 / 10, shootCooldown := 150 }
  | Difficulty.normal => { g with gameSpeed := 1, shootCooldown := 200 }
  | Difficulty.hard => { g with gameSpeed := 3 / 2, shootCooldown := 300 }

/-- State the constructor leaves behind, lines 3-42, for a canvas of the given
size. -/
def init (canvas : Canvas) : SpaceDefenderGame :=
  createPlayer
    { canvas := canvas
      gameState := Phase.start
      score := 0
      lives := 3
      level := 1
      gameSpeed := 1
      player := { x := 0, y := 0, width := 0, height := 0, speed := 0, color := Color.hex "" }
      bullets := []
      enemies := []
      particles := []
      powerUps := []
      keys := []
      lastShot := 0
      shootCooldown := 200
      difficulty := Difficulty.normal
      muted := false
      lastTime := 0
      randomCalls := 0 }

/-! ## Event listeners and actions -/

/-- Source keydown listener, lines 46-59: the key is marked as held; the space
bar fires while playing (`now = Date.now()` inside `shoot`), the P key toggles
pause. -/
def keydown (rnd : ℕ → ℚ) (code : String) (now : ℤ) (g : SpaceDefenderGame) :
    SpaceDefenderGame :=
  let g1 := { g with keys := if code ∈ g.keys then g.keys else code :: g.keys }
  let g2 :=
    if code = "Space" then
      if g1.gameState = Phase.playing then shoot now g1 else g1
    else g1
  if code = "KeyP" then togglePause rnd g2 else g2

/-- Source keyup listener, lines 61-63: the key is no longer held. -/
def keyup (code : String) (g : SpaceDefenderGame) : SpaceDefenderGame :=
  { g with keys := g.keys.filter (fun c => decide (c ≠ code)) }

/-- Source change listener of the difficulty selector, lines 82-85. -/
def changeDifficulty (d : Difficulty) (g : SpaceDefenderGame) : SpaceDefenderGame :=
  updateDifficulty { g with difficulty := d }

/-- Everything that can act on a game: the listeners of
`setupEventListeners`, the frame callback (`tick`), the spawn timer callback
(`spawn`) and a direct call of `shoot`. -/
inductive Action where
  | keydown (code : String) (now : ℤ)
  | keyup (code : String)
  | startGame
  | restartGame
  | togglePause
  | toggleMute
  | changeDifficulty (d : Difficulty)
  | shoot (now : ℤ)
  | spawn
  | tick (currentTime : ℚ)
  deriving DecidableEq, Repr

/-- Whether the action begins a new session (start or restart button). -/
def Action.startsSession : Action → Bool
  | Action.startGame => true
  | Action.restartGame => true
  | _ => false

/-- Effect of one action on the game. -/
def perform (rnd : ℕ → ℚ) : Action → SpaceDefenderGame → SpaceDefenderGame
  | Action.keydown code now, g => keydown rnd code now g
  | Action.keyup code, g => keyup code g
  | Action.startGame, g => startGame rnd g
  | Action.restartGame, g => restartGame rnd g
  | Action.togglePause, g => togglePause rnd g
  | Action.toggleMute, g => toggleMute g
  | Action.changeDifficulty d, g => changeDifficulty d g
  | Action.shoot now, g => shoot now g
  | Action.spawn, g => spawnCallback rnd g
  | Action.tick currentTime, g => gameLoop rnd currentTime g

/-! ## Specification-level definitions -/

/-- Highest index of an enemy overlapping `r`, if any: the specification of
the scans of `checkCollisions`, by recursion on the store. -/
def lastHit (r : Rect) : List Enemy → Option ℕ
  | [] => none
  | enemy :: rest =>
    match lastHit r rest with
    | some j => some (j + 1)
    | none => if isColliding r enemy.toRect then some 0 else none

/-- One bullet resolved against the enemies still present: it is consumed
together with the highest-index enemy it overlaps, or kept. -/
def resolveStep (bullet : Bullet) (acc : List Bullet × List Enemy) :
    List Bullet × List Enemy :=
  match lastHit bullet.toRect acc.2 with
  | none => (bullet :: acc.1, acc.2)
  | some j => (acc.1, acc.2.eraseIdx j)

/-- Specification of the bullet-enemy pass: bullets are resolved from the last
to the first. -/
def resolveHits (bullets : List Bullet) (enemies : List Enemy) :
    List Bullet × List Enemy :=
  bullets.foldr resolveStep ([], enemies)

/-- Predicate `IsLastHit r enemies j`: the enemy at index `j` overlaps `r` and no enemy
at a higher index does. -/
def IsLastHit (r : Rect) (enemies : List Enemy) (j : ℕ) : Prop :=
  (∃ enemy : Enemy, enemies[j]? = some enemy ∧ isColliding r enemy.toRect = true) ∧
  ∀ (j' : ℕ) (enemy' : Enemy), j < j' → enemies[j']? = some enemy' →
    isColliding r enemy'.toRect = false

/-- States reached from `g0` by finitely many actions, each of them allowed. -/
inductive ReachableBy (rnd : ℕ → ℚ) (allowed : Action → Prop) (g0 : SpaceDefenderGame) :
    SpaceDefenderGame → Prop where
  | start : ReachableBy rnd allowed g0 g0
  | step (a : Action) (g : SpaceDefenderGame) :
      allowed a → ReachableBy rnd allowed g0 g → ReachableBy rnd allowed g0 (perform rnd a g)

/-- States reachable from the state the constructor leaves, by any actions. -/
def Reachable (rnd : ℕ → ℚ) (canvas : Canvas) (g : SpaceDefenderGame) : Prop :=
  ReachableBy rnd (fun _ => True) (init canvas) g

/-- States of the session begun by `startGame` on `g0`: reached from it by
actions other than start and restart. -/
def InSession (rnd : ℕ → ℚ) (g0 g : SpaceDefenderGame) : Prop :=
  ReachableBy rnd (fun a => a.startsSession = false) (startGame rnd g0) g

/-- Game over exactly when no life is left. -/
def LivesInv (g : SpaceDefenderGame) : Prop :=
  g.gameState = Phase.gameOver ↔ g.lives ≤ 0

/-- Score is a non-negative multiple of 10, level is at least 1 and every
level above the first is backed by 100 points. -/
def ScoreInv (g : SpaceDefenderGame) : Prop :=
  (∃ n : ℕ, g.score = 10 * n) ∧ 1 ≤ g.level ∧ 100 * (g.level - 1) ≤ g.score

/-- The invariant of a particle in the store; the last component (life is a
whole number) makes it inductive under `updateParticles`. -/
def ParticleInv (p : Particle) : Prop :=
  1 ≤ p.life ∧ p.life ≤ p.maxLife ∧ p.alpha = p.life / p.maxLife ∧ ∃ n : ℕ, p.life = n

/-- One step of score and level bookkeeping from `score`, `level` to the game
`g`: the score grew by a multiple of 10 and the level stayed, or rose by one
with the new score at least `level * 100`. -/
def ScoreStep (score level : ℤ) (g : SpaceDefenderGame) : Prop :=
  ∃ k : ℕ, g.score = score + 10 * k ∧
    (g.level = level ∨ (g.level = level + 1 ∧ level * 100 ≤ g.score))

/-- The game after a list of actions, performed from the head on. -/
def runTrace (rnd : ℕ → ℚ) : List Action → SpaceDefenderGame → SpaceDefenderGame
  | [], g => g
  | a :: rest, g => runTrace rnd rest (perform rnd a g)

/-! ## Sample inputs -/

/-- A constant `Math.random` stream. -/
def sampleRandom : ℕ → ℚ := fun _ => 1 / 2

/-- An enemy of the size the spawner creates. -/
def sampleEnemy (x y speed : ℚ) : Enemy :=
  { x := x, y := y, width := 40, height := 30, speed := speed,
    color := Color.hsl 0 70 50, health := 1 }

/-- A session in play on an 800 x 600 canvas, nothing on screen yet. -/
def freshGame : SpaceDefenderGame :=
  { init { width := 800, height := 600 } with gameState := Phase.playing }

/-- One life left and two enemies about to cross the bottom edge together. -/
def lastLifeGame : SpaceDefenderGame :=
  { freshGame with
    lives := 1
    enemies := [sampleEnemy 0 600 1, sampleEnemy 100 600 1] }

/-- A session in play with one bullet in flight. -/
def pausedBulletGame : SpaceDefenderGame :=
  { freshGame with
    bullets := [{ x := 398, y := 100, width := 4, height := 10, speed := 8,
                  color := Color.hex "#00ff00" }] }

/-- The player as `createPlayer` places it on a canvas 56 wide (x = 3), left
key held. -/
def narrowCanvasGame : SpaceDefenderGame :=
  { init { width := 56, height := 600 } with
    gameState := Phase.playing
    keys := ["ArrowLeft"] }

/-- One enemy below the bottom edge by one unit. -/
def exitingEnemyGame : SpaceDefenderGame :=
  { freshGame with enemies := [sampleEnemy 0 601 1] }

/-- Two enemies on top of the player (player at x = 375, y = 520). -/
def crowdedGame : SpaceDefenderGame :=
  { freshGame with enemies := [sampleEnemy 380 510 1, sampleEnemy 390 515 2] }

/-- A bullet that the next tick brings exactly to y = -height (canvas 300 x 150,
the default size of a canvas element; bullets start at y = 70 and rise by 8). -/
def edgeBulletGame : SpaceDefenderGame :=
  { init { width := 300, height := 150 } with
    gameState := Phase.playing
    bullets := [{ x := 148, y := -2, width := 4, height := 10, speed := 8,
                  color := Color.hex "#00ff00" }] }

/-- One life left, score 90; the first enemy is about to cross the bottom
edge, the second is about to be hit by the bullet, the third is about to cross
the bottom edge too. -/
def gameOverMidTickGame : SpaceDefenderGame :=
  { freshGame with
    lives := 1
    score := 90
    bullets := [{ x := 10, y := 110, width := 4, height := 10, speed := 8,
                  color := Color.hex "#00ff00" }]
    enemies := [sampleEnemy 200 600 1, sampleEnemy 0 100 1, sampleEnemy 300 600 1] }

/-- A bullet in flight and an enemy far from it. -/
def missGame : SpaceDefenderGame :=
  { freshGame with
    bullets := [{ x := 10, y := 110, width := 4, height := 10, speed := 8,
                  color := Color.hex "#00ff00" }]
    enemies := [sampleEnemy 200 100 1] }

/-- A session played into the ground: start, three spawns, and frames until the
three enemies (all at x = 380, speed 2) have reached the player one by one. -/
def collisionTrace : List Action :=
  [Action.startGame, Action.spawn, Action.spawn, Action.spawn] ++
    List.replicate 268 (Action.tick 0)

/-- Within a session: one shot, one spawn, and frames until the bullet meets
the enemy. -/
def sessionTrace : List Action :=
  [Action.keydown "Space" 1000, Action.spawn] ++ List.replicate 54 (Action.tick 0)

/-- The canvas of the sample sessions. -/
def sampleCanvas : Canvas := { width := 800, height := 600 }

/-! ## Helper lemmas -/

/-- Bullet-enemy pass with no enemies: nothing to scan. -/
theorem bulletEnemyOuter_enemies_nil (rnd : ℕ → ℚ) (n : ℕ) (g : SpaceDefenderGame)
    (h : g.enemies = []) : bulletEnemyOuter rnd n g = g := by
  induction n with
  | zero => rfl
  | succ i ih => simp [bulletEnemyOuter, h, bulletEnemyInner, ih]

/-- With an empty enemy store `checkCollisions` changes nothing. -/
theorem checkCollisions_enemies_nil (rnd : ℕ → ℚ) (g : SpaceDefenderGame)
    (h : g.enemies = []) : checkCollisions rnd g = g := by
  simp [checkCollisions, bulletEnemyCollisions, playerEnemyCollisions,
    bulletEnemyOuter_enemies_nil rnd _ g h, h, playerEnemyLoop]

/-- The x-coordinate `updatePlayer` leaves, as a function of the old one. -/
theorem updatePlayer_x (g : SpaceDefenderGame) :
    (updatePlayer g).player.x =
      if "ArrowRight" ∈ g.keys ∧
          (if "ArrowLeft" ∈ g.keys ∧ g.player.x > 0 then g.player.x - g.player.speed
            else g.player.x) < g.canvas.width - g.player.width then
        (if "ArrowLeft" ∈ g.keys ∧ g.player.x > 0 then g.player.x - g.player.speed
          else g.player.x) + g.player.speed
      else
        (if "ArrowLeft" ∈ g.keys ∧ g.player.x > 0 then g.player.x - g.player.speed
          else g.player.x) := by
  unfold updatePlayer
  by_cases hl : "ArrowLeft" ∈ g.keys ∧ g.player.x > 0
  · simp only [hl, and_self, if_true]
    split_ifs <;> rfl
  · simp only [hl, if_false]
    split_ifs <;> rfl

/-- Fields of the player and canvas `updatePlayer` does not write. -/
theorem updatePlayer_frame (g : SpaceDefenderGame) :
    (updatePlayer g).player.width = g.player.width ∧
    (updatePlayer g).player.speed = g.player.speed ∧
    (updatePlayer g).canvas = g.canvas := by
  unfold updatePlayer
  by_cases hl : "ArrowLeft" ∈ g.keys ∧ g.player.x > 0
  · simp only [hl, and_self, if_true]
    split_ifs <;> exact ⟨rfl, rfl, rfl⟩
  · simp only [hl, if_false]
    split_ifs <;> exact ⟨rfl, rfl, rfl⟩

/-- A filter and its complement split the list. -/
theorem length_filter_add_length_filter_not {α : Type} (p : α → Bool) (l : List α) :
    (l.filter p).length + (l.filter (fun a => !p a)).length = l.length := by
  induction l with
  | nil => rfl
  | cons a l ih =>
    by_cases h : p a = true
    · simp [List.filter_cons, h]; omega
    · simp [List.filter_cons, h]; omega

/-- The stateful filter of `updateEnemies` as a pure filter plus a count. -/
theorem updateEnemiesFilter_spec (enemies : List Enemy) (g : SpaceDefenderGame) :
    (updateEnemiesFilter enemies g).1 =
      (enemies.map fun enemy => ({ enemy with y := enemy.y + enemy.speed } : Enemy)).filter
        (fun enemy => !decide (enemy.y > g.canvas.height)) ∧
    (updateEnemiesFilter enemies g).2 =
      { g with
        lives := g.lives -
          ((enemies.map fun enemy => ({ enemy with y := enemy.y + enemy.speed } : Enemy)).filter
            (fun enemy => decide (enemy.y > g.canvas.height))).length
        gameState := (updateEnemiesFilter enemies g).2.gameState } := by
  induction enemies generalizing g with
  | nil => simp [updateEnemiesFilter]
  | cons enemy rest ih =>
    by_cases h : enemy.y + enemy.speed > g.canvas.height
    · simp only [updateEnemiesFilter, h, if_true]
      split_ifs with hl
      · have := ih (gameOver { g with lives := g.lives - 1 })
        refine ⟨by simpa [gameOver, h] using this.1, ?_⟩
        rw [this.2]
        simp [gameOver, h]
        ring
      · have := ih { g with lives := g.lives - 1 }
        refine ⟨by simpa [h] using this.1, ?_⟩
        rw [this.2]
        simp [h]
        ring
    · simp only [updateEnemiesFilter, h, if_false]
      have := ih g
      refine ⟨by simp [h, this.1], ?_⟩
      rw [this.2]
      simp [h]

/-- The explosion loop appends `n` particles and makes `3 n` draws. -/
theorem createExplosionLoop_spec (rnd : ℕ → ℚ) (x y : ℚ) (n : ℕ) (g : SpaceDefenderGame) :
    ∃ ps : List Particle, ps.length = n ∧
      createExplosionLoop rnd x y n g =
        { g with particles := g.particles ++ ps, randomCalls := g.randomCalls + 3 * n } := by
  induction n generalizing g with
  | zero => exact ⟨[], rfl, by simp [createExplosionLoop]⟩
  | succ n ih =>
    obtain ⟨ps, hlen, hps⟩ := ih
      { g with
        particles := g.particles ++ [explosionParticle rnd x y g.randomCalls]
        randomCalls := g.randomCalls + 3 }
    refine ⟨explosionParticle rnd x y g.randomCalls :: ps, by simp [hlen], ?_⟩
    rw [createExplosionLoop, hps]
    simp only [List.append_assoc, List.singleton_append]
    congr 1
    ring

/-- An explosion appends 8 particles and writes nothing else but `randomCalls`. -/
theorem createExplosion_spec (rnd : ℕ → ℚ) (x y : ℚ) (g : SpaceDefenderGame) :
    ∃ ps : List Particle, ps.length = 8 ∧
      createExplosion rnd x y g =
        { g with particles := g.particles ++ ps, randomCalls := g.randomCalls + 24 } := by
  obtain ⟨ps, hlen, hps⟩ := createExplosionLoop_spec rnd x y 8 g
  exact ⟨ps, hlen, by rw [createExplosion, hps]⟩

/-- No hit reported: no enemy overlaps. -/
theorem lastHit_none (r : Rect) (enemies : List Enemy) (h : lastHit r enemies = none) :
    ∀ (j : ℕ) (enemy : Enemy), enemies[j]? = some enemy → isColliding r enemy.toRect = false := by
  induction enemies with
  | nil => intro j enemy hj; simp at hj
  | cons e rest ih =>
    rw [lastHit] at h
    cases hr : lastHit r rest with
    | some j0 => rw [hr] at h; simp at h
    | none =>
      rw [hr] at h
      simp only at h
      have he : isColliding r e.toRect = false := by
        by_contra hc
        simp only [Bool.not_eq_false] at hc
        simp [hc] at h
      intro j enemy hj
      cases j with
      | zero => simp at hj; rw [← hj]; exact he
      | succ j => simp at hj; exact ih hr j enemy hj

/-- A hit reported at `j`: `j` is the highest overlapping index. -/
theorem lastHit_some (r : Rect) (enemies : List Enemy) (j : ℕ)
    (h : lastHit r enemies = some j) : IsLastHit r enemies j := by
  induction enemies generalizing j with
  | nil => simp [lastHit] at h
  | cons e rest ih =>
    rw [lastHit] at h
    cases hr : lastHit r rest with
    | some j0 =>
      rw [hr] at h
      simp only [Option.some.injEq] at h
      subst h
      obtain ⟨⟨enemy, h1, h2⟩, h3⟩ := ih j0 hr
      refine ⟨⟨enemy, by simpa using h1, h2⟩, ?_⟩
      intro j' enemy' hlt hj'
      cases j' with
      | zero => omega
      | succ j' => exact h3 j' enemy' (by omega) (by simpa using hj')
    | none =>
      rw [hr] at h
      simp only at h
      by_cases hc : isColliding r e.toRect = true
      · simp only [hc, if_true, Option.some.injEq] at h
        subst h
        refine ⟨⟨e, by simp, hc⟩, ?_⟩
        intro j' enemy' hlt hj'
        cases j' with
        | zero => omega
        | succ j' => exact lastHit_none r rest hr j' enemy' (by simpa using hj')
      · simp [hc] at h

/-- The highest overlapping index is unique. -/
theorem isLastHit_unique (r : Rect) (enemies : List Enemy) (j k : ℕ)
    (hj : IsLastHit r enemies j) (hk : IsLastHit r enemies k) : j = k := by
  obtain ⟨⟨ej, hj1, hj2⟩, hj3⟩ := hj
  obtain ⟨⟨ek, hk1, hk2⟩, hk3⟩ := hk
  rcases Nat.lt_trichotomy j k with h | h | h
  · have := hj3 k ek h hk1; rw [hk2] at this; cases this
  · exact h
  · have := hk3 j ej h hj1; rw [hj2] at this; cases this

/-- Characterisation of `lastHit` returning an index. -/
theorem lastHit_eq_some_iff (r : Rect) (enemies : List Enemy) (j : ℕ) :
    lastHit r enemies = some j ↔ IsLastHit r enemies j := by
  refine ⟨lastHit_some r enemies j, fun h => ?_⟩
  cases hr : lastHit r enemies with
  | none =>
    obtain ⟨⟨e, h1, h2⟩, _⟩ := h
    have := lastHit_none r enemies hr j e h1
    rw [h2] at this; cases this
  | some k => rw [isLastHit_unique r enemies j k h (lastHit_some r enemies k hr)]

/-- Characterisation of `lastHit` returning nothing. -/
theorem lastHit_eq_none_iff (r : Rect) (enemies : List Enemy) :
    lastHit r enemies = none ↔
      ∀ (j : ℕ) (enemy : Enemy), enemies[j]? = some enemy → isColliding r enemy.toRect = false := by
  refine ⟨lastHit_none r enemies, fun h => ?_⟩
  cases hr : lastHit r enemies with
  | none => rfl
  | some k =>
    obtain ⟨⟨e, h1, h2⟩, _⟩ := lastHit_some r enemies k hr
    have := h k e h1
    rw [h2] at this; cases this

/-- The highest overlapping index is in range. -/
theorem isLastHit_lt_length (r : Rect) (enemies : List Enemy) (j : ℕ)
    (h : IsLastHit r enemies j) : j < enemies.length := by
  obtain ⟨⟨e, he, _⟩, _⟩ := h
  by_contra hge
  rw [List.getElem?_eq_none (Nat.le_of_not_lt hge)] at he
  cases he

/-- Erasing index `i` keeps the first `i` elements. -/
theorem take_eraseIdx_self {α : Type} (l : List α) (i : ℕ) :
    (l.eraseIdx i).take i = l.take i := by
  induction l generalizing i with
  | nil => simp
  | cons a l ih =>
    cases i with
    | zero => simp
    | succ i => simp [List.eraseIdx, ih]

/-- Erasing index `i` and dropping `i` drops `i + 1` of the original. -/
theorem drop_eraseIdx_self {α : Type} (l : List α) (i : ℕ) :
    (l.eraseIdx i).drop i = l.drop (i + 1) := by
  induction l generalizing i with
  | nil => simp
  | cons a l ih =>
    cases i with
    | zero => simp
    | succ i => simp [List.eraseIdx, ih]

/-- Inner scan over enemies none of which overlaps the bullet. -/
theorem bulletEnemyInner_miss (rnd : ℕ → ℚ) (i n : ℕ) (g : SpaceDefenderGame) (b : Bullet)
    (hb : g.bullets[i]? = some b) (hn : n ≤ g.enemies.length)
    (h : ∀ (j : ℕ) (e : Enemy), j < n → g.enemies[j]? = some e →
      isColliding b.toRect e.toRect = false) :
    bulletEnemyInner rnd i n g = g := by
  induction n with
  | zero => rfl
  | succ j ih =>
    have hj : j < g.enemies.length := hn
    have he : g.enemies[j]? = some g.enemies[j] := List.getElem?_eq_getElem hj
    rw [bulletEnemyInner, hb, he]
    simp only [h j _ (Nat.lt_succ_self j) he, Bool.false_eq_true, if_false]
    exact ih (Nat.le_of_succ_le hn) (fun j' e hj' => h j' e (Nat.lt_succ_of_lt hj'))

/-- Inner scan whose highest overlapping enemy below `n` is at `j`. -/
theorem bulletEnemyInner_hit (rnd : ℕ → ℚ) (i n : ℕ) (g : SpaceDefenderGame) (b : Bullet)
    (j : ℕ) (e : Enemy)
    (hb : g.bullets[i]? = some b) (hn : n ≤ g.enemies.length) (hj : j < n)
    (he : g.enemies[j]? = some e) (hc : isColliding b.toRect e.toRect = true)
    (hmax : ∀ (j' : ℕ) (e' : Enemy), j < j' → j' < n → g.enemies[j']? = some e' →
      isColliding b.toRect e'.toRect = false) :
    ∃ ps : List Particle, ps.length = 8 ∧
      bulletEnemyInner rnd i n g =
        { g with
          bullets := g.bullets.eraseIdx i
          enemies := g.enemies.eraseIdx j
          score := g.score + 10
          particles := g.particles ++ ps
          randomCalls := g.randomCalls + 24 } := by
  induction n with
  | zero => omega
  | succ m ih =>
    have hm : m < g.enemies.length := hn
    have hem : g.enemies[m]? = some g.enemies[m] := List.getElem?_eq_getElem hm
    rcases Nat.lt_succ_iff_lt_or_eq.mp hj with hlt | heq
    · rw [bulletEnemyInner, hb, hem]
      simp only [hmax m _ hlt (Nat.lt_succ_self m) hem, Bool.false_eq_true, if_false]
      exact ih (Nat.le_of_succ_le hn) hlt
        (fun j' e' h1 h2 => hmax j' e' h1 (Nat.lt_succ_of_lt h2))
    · subst heq
      obtain ⟨ps, hlen, hps⟩ :=
        createExplosion_spec rnd (e.x + e.width / 2) (e.y + e.height / 2) g
      refine ⟨ps, hlen, ?_⟩
      rw [bulletEnemyInner, hb, he]
      simp only [hc, if_true, hps]

/-- Full inner scan when `lastHit` finds nothing. -/
theorem bulletEnemyInner_lastHit_none (rnd : ℕ → ℚ) (i : ℕ) (g : SpaceDefenderGame)
    (b : Bullet) (hb : g.bullets[i]? = some b) (h : lastHit b.toRect g.enemies = none) :
    bulletEnemyInner rnd i g.enemies.length g = g :=
  bulletEnemyInner_miss rnd i _ g b hb (le_refl _)
    (fun j e _ he => lastHit_none b.toRect g.enemies h j e he)

/-- Full inner scan when `lastHit` finds index `j`. -/
theorem bulletEnemyInner_lastHit_some (rnd : ℕ → ℚ) (i : ℕ) (g : SpaceDefenderGame)
    (b : Bullet) (j : ℕ) (hb : g.bullets[i]? = some b)
    (h : lastHit b.toRect g.enemies = some j) :
    j < g.enemies.length ∧ ∃ ps : List Particle, ps.length = 8 ∧
      bulletEnemyInner rnd i g.enemies.length g =
        { g with
          bullets := g.bullets.eraseIdx i
          enemies := g.enemies.eraseIdx j
          score := g.score + 10
          particles := g.particles ++ ps
          randomCalls := g.randomCalls + 24 } := by
  obtain ⟨⟨e, he, hc⟩, hmax⟩ := lastHit_some b.toRect g.enemies j h
  have hj : j < g.enemies.length := by
    by_contra hge
    rw [List.getElem?_eq_none (Nat.le_of_not_lt hge)] at he
    cases he
  exact ⟨hj, bulletEnemyInner_hit rnd i _ g b j e hb (le_refl _) hj he hc
    (fun j' e' h1 _ h3 => hmax j' e' h1 h3)⟩

/-- Resolution only ever removes bullets and enemies. -/
theorem resolve_sublist (xs kept : List Bullet) (es : List Enemy) :
    (xs.foldr resolveStep (kept, es)).1.Sublist (xs ++ kept) ∧
    (xs.foldr resolveStep (kept, es)).2.Sublist es := by
  induction xs with
  | nil => simp
  | cons b rest ih =>
    simp only [List.foldr_cons, resolveStep]
    cases lastHit b.toRect (List.foldr resolveStep (kept, es) rest).2 with
    | none => exact ⟨by simpa using ih.1, ih.2⟩
    | some j =>
      exact ⟨by simpa using ih.1.trans (List.sublist_cons_self b _),
        (List.eraseIdx_sublist _ _).trans ih.2⟩

/-- Outer loop at `i`: bullets `i` and above are settled, those below are
resolved as `resolveStep` prescribes; `k` counts the hits. -/
theorem bulletEnemyOuter_spec (rnd : ℕ → ℚ) (i : ℕ) (g : SpaceDefenderGame)
    (hi : i ≤ g.bullets.length) :
    ∃ (k : ℕ) (ps : List Particle), ps.length = 8 * k ∧
      ((g.bullets.take i).foldr resolveStep (g.bullets.drop i, g.enemies)).1.length + k
        = g.bullets.length ∧
      ((g.bullets.take i).foldr resolveStep (g.bullets.drop i, g.enemies)).2.length + k
        = g.enemies.length ∧
      bulletEnemyOuter rnd i g =
        { g with
          bullets := ((g.bullets.take i).foldr resolveStep (g.bullets.drop i, g.enemies)).1
          enemies := ((g.bullets.take i).foldr resolveStep (g.bullets.drop i, g.enemies)).2
          score := g.score + 10 * k
          particles := g.particles ++ ps
          randomCalls := g.randomCalls + 24 * k } := by
  induction i generalizing g with
  | zero => exact ⟨0, [], rfl, by simp, by simp, by simp [bulletEnemyOuter]⟩
  | succ i ih =>
    have hlt : i < g.bullets.length := hi
    have hb : g.bullets[i]? = some g.bullets[i] := List.getElem?_eq_getElem hlt
    have htake : g.bullets.take (i + 1) = g.bullets.take i ++ [g.bullets[i]] := by
      rw [List.take_succ, hb]; rfl
    have hdrop : g.bullets.drop i = g.bullets[i] :: g.bullets.drop (i + 1) :=
      List.drop_eq_getElem_cons hlt
    rw [bulletEnemyOuter, htake, List.foldr_append]
    simp only [List.foldr_cons, List.foldr_nil]
    cases hl : lastHit (g.bullets[i]).toRect g.enemies with
    | none =>
      rw [bulletEnemyInner_lastHit_none rnd i g _ hb hl]
      have hstep : resolveStep g.bullets[i] (g.bullets.drop (i + 1), g.enemies)
          = (g.bullets.drop i, g.enemies) := by
        simp only [resolveStep, hl, hdrop]
      rw [hstep]
      exact ih g (Nat.le_of_succ_le hi)
    | some j =>
      obtain ⟨hj, ps0, hlen0, hinner⟩ := bulletEnemyInner_lastHit_some rnd i g _ j hb hl
      have hstep : resolveStep g.bullets[i] (g.bullets.drop (i + 1), g.enemies)
          = (g.bullets.drop (i + 1), g.enemies.eraseIdx j) := by
        simp only [resolveStep, hl]
      rw [hstep, hinner]
      have hlenb : (g.bullets.eraseIdx i).length = g.bullets.length - 1 := by
        rw [List.length_eraseIdx, if_pos hlt]
      have hlene : (g.enemies.eraseIdx j).length = g.enemies.length - 1 := by
        rw [List.length_eraseIdx, if_pos hj]
      obtain ⟨k, ps, hlen, h1, h2, h3⟩ := ih
        { g with
          bullets := g.bullets.eraseIdx i
          enemies := g.enemies.eraseIdx j
          score := g.score + 10
          particles := g.particles ++ ps0
          randomCalls := g.randomCalls + 24 } (by simp only [hlenb]; omega)
      simp only [take_eraseIdx_self, drop_eraseIdx_self] at h1 h2 h3
      refine ⟨k + 1, ps0 ++ ps, by simp [hlen0, hlen]; ring, by omega, by omega, ?_⟩
      rw [h3]
      simp only [List.append_assoc]
      congr 1
      · push_cast; ring
      · ring

/-- Player scan over enemies none of which overlaps the player. -/
theorem playerEnemyLoop_miss (rnd : ℕ → ℚ) (n : ℕ) (g : SpaceDefenderGame)
    (hn : n ≤ g.enemies.length)
    (h : ∀ (j : ℕ) (e : Enemy), j < n → g.enemies[j]? = some e →
      isColliding g.player.toRect e.toRect = false) :
    playerEnemyLoop rnd n g = g := by
  induction n with
  | zero => rfl
  | succ j ih =>
    have hj : j < g.enemies.length := hn
    have he : g.enemies[j]? = some g.enemies[j] := List.getElem?_eq_getElem hj
    rw [playerEnemyLoop, he]
    simp only [h j _ (Nat.lt_succ_self j) he, Bool.false_eq_true, if_false]
    exact ih (Nat.le_of_succ_le hn) (fun j' e hj' => h j' e (Nat.lt_succ_of_lt hj'))

/-- Player scan whose highest overlapping enemy below `n` is at `j`. -/
theorem playerEnemyLoop_hit (rnd : ℕ → ℚ) (n : ℕ) (g : SpaceDefenderGame)
    (j : ℕ) (e : Enemy) (hn : n ≤ g.enemies.length) (hj : j < n)
    (he : g.enemies[j]? = some e) (hc : isColliding g.player.toRect e.toRect = true)
    (hmax : ∀ (j' : ℕ) (e' : Enemy), j < j' → j' < n → g.enemies[j']? = some e' →
      isColliding g.player.toRect e'.toRect = false) :
    ∃ ps : List Particle, ps.length = 8 ∧
      playerEnemyLoop rnd n g =
        { g with
          enemies := g.enemies.eraseIdx j
          lives := g.lives - 1
          particles := g.particles ++ ps
          randomCalls := g.randomCalls + 24
          gameState := if g.lives - 1 ≤ 0 then Phase.gameOver else g.gameState } := by
  induction n with
  | zero => omega
  | succ m ih =>
    have hm : m < g.enemies.length := hn
    have hem : g.enemies[m]? = some g.enemies[m] := List.getElem?_eq_getElem hm
    rcases Nat.lt_succ_iff_lt_or_eq.mp hj with hlt | heq
    · rw [playerEnemyLoop, hem]
      simp only [hmax m _ hlt (Nat.lt_succ_self m) hem, Bool.false_eq_true, if_false]
      exact ih (Nat.le_of_succ_le hn) hlt
        (fun j' e' h1 h2 => hmax j' e' h1 (Nat.lt_succ_of_lt h2))
    · subst heq
      obtain ⟨ps, hlen, hps⟩ :=
        createExplosion_spec rnd (e.x + e.width / 2) (e.y + e.height / 2) g
      refine ⟨ps, hlen, ?_⟩
      rw [playerEnemyLoop, he]
      simp only [hc, if_true, hps]
      split_ifs <;> simp [gameOver]

/-! ## Claims -/

/-- C1: lives can go below zero within one tick.  In a playing state with one
life left, two enemies crossing the bottom edge in the same tick each cost a
life: `gameOver()` is called at the first but the filter goes on, so
`updateEnemies`, and with it the whole `update`, ends with lives = -1. -/
theorem update_lives_below_zero (rnd : ℕ → ℚ) :
    lastLifeGame.gameState = Phase.playing ∧ lastLifeGame.lives = 1 ∧
      (updateEnemies lastLifeGame).lives = -1 ∧
      (update rnd lastLifeGame).lives = -1 := by
  refine ⟨rfl, rfl, ?_, ?_⟩ <;>
  simp [update, lastLifeGame, freshGame, init, createPlayer, updatePlayer, updateBullets, updateEnemies,
    updateEnemiesFilter, sampleEnemy, updateParticles, updatePowerUps, checkCollisions,
    checkLevelProgression, bulletEnemyCollisions, playerEnemyCollisions, bulletEnemyOuter,
    playerEnemyLoop, gameOver]

/-- C2: `isColliding` holds exactly when the four strict comparisons hold, and
it is false for two rectangles that only touch along an edge, on either side
and on either axis. -/
theorem isColliding_iff_strict_overlap (r1 r2 : Rect) :
    (isColliding r1 r2 = true ↔
      r1.x < r2.x + r2.width ∧ r1.x + r1.width > r2.x ∧
      r1.y < r2.y + r2.height ∧ r1.y + r1.height > r2.y) ∧
    (r1.x + r1.width = r2.x ∨ r1.y + r1.height = r2.y ∨
      r2.x + r2.width = r1.x ∨ r2.y + r2.height = r1.y → isColliding r1 r2 = false) := by
  have key : isColliding r1 r2 = true ↔
      r1.x < r2.x + r2.width ∧ r1.x + r1.width > r2.x ∧
      r1.y < r2.y + r2.height ∧ r1.y + r1.height > r2.y := by
    simp [isColliding, and_assoc]
  refine ⟨key, fun h => ?_⟩
  rw [← Bool.not_eq_true, key]
  rintro ⟨h1, h2, h3, h4⟩
  rcases h with h | h | h | h
  · rw [h] at h2; exact lt_irrefl _ h2
  · rw [h] at h4; exact lt_irrefl _ h4
  · rw [h] at h1; exact lt_irrefl _ h1
  · rw [h] at h3; exact lt_irrefl _ h3

/-- C2, instance: a rectangle whose right edge is the left edge of the other. -/
theorem isColliding_iff_strict_overlap_witness :
    isColliding { x := 0, y := 0, width := 10, height := 10 }
      { x := 10, y := 0, width := 10, height := 10 } = false :=
  (isColliding_iff_strict_overlap _ _).2 (Or.inl (by norm_num))

/-- C3: whatever the prior state and the held keys, the state `restartGame`
leaves behind, first tick included, is playing with score 0, lives 3, level 1
and empty bullet, enemy, particle and power-up stores. -/
theorem restartGame_fresh_session (rnd : ℕ → ℚ) (g : SpaceDefenderGame) :
    (restartGame rnd g).gameState = Phase.playing ∧
    (restartGame rnd g).score = 0 ∧
    (restartGame rnd g).lives = 3 ∧
    (restartGame rnd g).level = 1 ∧
    (restartGame rnd g).bullets = [] ∧
    (restartGame rnd g).enemies = [] ∧
    (restartGame rnd g).particles = [] ∧
    (restartGame rnd g).powerUps = [] := by
  simp only [restartGame, startGame, gameLoop, createPlayer, update, updatePlayer]
  split_ifs <;>
  simp_all [updateBullets, updateEnemies,
    updateEnemiesFilter, updateParticles, updatePowerUps, checkCollisions,
    checkLevelProgression, bulletEnemyCollisions, playerEnemyCollisions, bulletEnemyOuter,
    playerEnemyLoop]

/-- C4, as stated, fails: after pausing and resuming a playing game with one
bullet in flight the bullet store differs from the one before the first
toggle (the bullet has moved up by its speed). -/
theorem togglePause_twice_moves_bullets :
    pausedBulletGame.gameState = Phase.playing ∧
      (togglePause sampleRandom (togglePause sampleRandom pausedBulletGame)).bullets
        ≠ pausedBulletGame.bullets := by
  refine ⟨rfl, ?_⟩
  simp [togglePause, gameLoop, update, pausedBulletGame, freshGame, init, createPlayer, updatePlayer,
    updateBullets, updateEnemies,
    updateEnemiesFilter, updateParticles, updatePowerUps, checkCollisions_enemies_nil,
    checkLevelProgression]
  norm_num

/-- C4, amended: on a playing game the first `togglePause` only sets the phase
to paused; the second one resumes by calling `gameLoop()`, so the state after
both toggles is the state one tick (`update` with `lastTime` = 0) makes of the
original state. -/
theorem togglePause_twice_is_one_tick (rnd : ℕ → ℚ) (g : SpaceDefenderGame)
    (h : g.gameState = Phase.playing) :
    togglePause rnd g = { g with gameState := Phase.paused } ∧
    togglePause rnd (togglePause rnd g) = gameLoop rnd 0 g ∧
    gameLoop rnd 0 g = update rnd { g with lastTime := 0 } := by
  have hg : { g with gameState := Phase.playing } = g := by
    cases g; simp_all
  refine ⟨by simp [togglePause, h], ?_, by simp [gameLoop, h]⟩
  simp [togglePause, h, hg]

/-- C4, amended, instance: the game with one bullet in flight. -/
theorem togglePause_twice_is_one_tick_witness :
    togglePause sampleRandom pausedBulletGame
        = { pausedBulletGame with gameState := Phase.paused } ∧
    togglePause sampleRandom (togglePause sampleRandom pausedBulletGame)
        = gameLoop sampleRandom 0 pausedBulletGame ∧
    gameLoop sampleRandom 0 pausedBulletGame
        = update sampleRandom { pausedBulletGame with lastTime := 0 } :=
  togglePause_twice_is_one_tick sampleRandom pausedBulletGame rfl

/-- C5, as stated, fails: on a canvas 56 wide the player starts at x = 3, within
the bounds 0 and 6; with the left key held `updatePlayer` moves it to x = -2. -/
theorem updatePlayer_leaves_canvas :
    0 ≤ narrowCanvasGame.player.x ∧
      narrowCanvasGame.player.x ≤ narrowCanvasGame.canvas.width - narrowCanvasGame.player.width ∧
      (updatePlayer narrowCanvasGame).player.x = -2 := by
  rw [updatePlayer_x]
  simp [narrowCanvasGame, init, createPlayer]
  norm_num

/-- C5, amended: from a position within the bounds and with a positive speed,
`updatePlayer` leaves the player less than one step outside them; it keeps the
player within the bounds whenever the player is on an edge or at least one
step away from it on each side, in particular when the position and the right
bound are whole multiples of the speed (and then the new position is again
such a multiple); at x = 0 without the right key held, x stays 0. -/
theorem updatePlayer_bounds (g : SpaceDefenderGame)
    (h0 : 0 ≤ g.player.x) (h1 : g.player.x ≤ g.canvas.width - g.player.width)
    (hs : 0 < g.player.speed) :
    (-g.player.speed < (updatePlayer g).player.x ∧
      (updatePlayer g).player.x < g.canvas.width - g.player.width + g.player.speed) ∧
    ((g.player.x = 0 ∨ g.player.speed ≤ g.player.x) →
      (g.player.x = g.canvas.width - g.player.width ∨
        g.player.x + g.player.speed ≤ g.canvas.width - g.player.width) →
      0 ≤ (updatePlayer g).player.x ∧
        (updatePlayer g).player.x ≤ g.canvas.width - g.player.width) ∧
    (∀ k m : ℕ, g.player.x = k * g.player.speed →
      g.canvas.width - g.player.width = m * g.player.speed →
      ∃ k' : ℕ, (updatePlayer g).player.x = k' * g.player.speed ∧
        0 ≤ (updatePlayer g).player.x ∧
        (updatePlayer g).player.x ≤ g.canvas.width - g.player.width) ∧
    (g.player.x = 0 → "ArrowRight" ∉ g.keys → (updatePlayer g).player.x = 0) ∧
    (updatePlayer g).player.width = g.player.width ∧
    (updatePlayer g).canvas = g.canvas := by
  refine ⟨?_, ?_, ?_, ?_, (updatePlayer_frame g).1, (updatePlayer_frame g).2.2⟩
  · rw [updatePlayer_x]
    by_cases hl : "ArrowLeft" ∈ g.keys ∧ g.player.x > 0
    · have hpos := hl.2
      simp only [hl, and_self, if_true]
      split_ifs with hr
      · constructor <;> linarith
      · constructor <;> linarith
    · simp only [hl, if_false]
      split_ifs with hr
      · have hlt := hr.2
        constructor <;> linarith
      · constructor <;> linarith
  · intro ha hb
    rw [updatePlayer_x]
    by_cases hl : "ArrowLeft" ∈ g.keys ∧ g.player.x > 0
    · have hpos := hl.2
      have hge : g.player.speed ≤ g.player.x := by
        rcases ha with ha | ha
        · linarith
        · exact ha
      simp only [hl, and_self, if_true]
      split_ifs with hr
      · constructor <;> linarith
      · constructor <;> linarith
    · simp only [hl, if_false]
      split_ifs with hr
      · have hlt := hr.2
        have hle : g.player.x + g.player.speed ≤ g.canvas.width - g.player.width := by
          rcases hb with hb | hb
          · linarith
          · exact hb
        constructor <;> linarith
      · exact ⟨h0, h1⟩
  · intro k m hk hm
    rw [updatePlayer_x]
    by_cases hl : "ArrowLeft" ∈ g.keys ∧ g.player.x > 0
    · simp only [hl, and_self, if_true]
      have hk0 : k ≠ 0 := by
        rintro rfl
        simp at hk
        have := hl.2
        linarith
      obtain ⟨k1, rfl⟩ := Nat.exists_eq_succ_of_ne_zero hk0
      have hx1 : g.player.x - g.player.speed = k1 * g.player.speed := by
        rw [hk]; push_cast; ring
      have hx1' : (0:ℚ) ≤ k1 * g.player.speed := mul_nonneg (Nat.cast_nonneg _) hs.le
      split_ifs with hr
      · exact ⟨k1 + 1, by rw [hk]; push_cast; ring, by linarith, by linarith⟩
      · exact ⟨k1, hx1, by linarith, by linarith⟩
    · simp only [hl, if_false]
      split_ifs with hr
      · have hlt : (k : ℚ) * g.player.speed < m * g.player.speed := by
          rw [← hk, ← hm]; exact hr.2
        have hkm : (k : ℚ) < m := lt_of_mul_lt_mul_right hlt hs.le
        have hkm' : k + 1 ≤ m := by exact_mod_cast hkm
        have hkm2 : ((k : ℚ) + 1) ≤ m := by exact_mod_cast hkm'
        refine ⟨k + 1, by rw [hk]; push_cast; ring, by linarith, ?_⟩
        rw [hm, hk]
        nlinarith
      · exact ⟨k, hk, h0, h1⟩
  · intro hx hr
    rw [updatePlayer_x]
    simp [hr, hx]

/-- C5, amended, instance: the player at x = 3 on the canvas 56 wide. -/
theorem updatePlayer_bounds_witness :
    (updatePlayer narrowCanvasGame).player.x < 
      narrowCanvasGame.canvas.width - narrowCanvasGame.player.width + narrowCanvasGame.player.speed :=
  (updatePlayer_bounds narrowCanvasGame (by simp [narrowCanvasGame, init, createPlayer]; norm_num)
    (by simp [narrowCanvasGame, init, createPlayer]; norm_num)
    (by simp [narrowCanvasGame, init, createPlayer])).1.2

/-- C6: `checkLevelProgression` sets level to level + 1 when score >= level * 100
and leaves it unchanged otherwise; the level never rises by more than 1 and no
other field changes.  Level 1 with score 105 and level 1 with score 250 both
become level 2. -/
theorem checkLevelProgression_single_step (g : SpaceDefenderGame) :
    (checkLevelProgression g).level =
      (if g.score ≥ g.level * 100 then g.level + 1 else g.level) ∧
    g.level ≤ (checkLevelProgression g).level ∧
    (checkLevelProgression g).level ≤ g.level + 1 ∧
    checkLevelProgression g = { g with level := (checkLevelProgression g).level } ∧
    (g.level = 1 → g.score = 105 → (checkLevelProgression g).level = 2) ∧
    (g.level = 1 → g.score = 250 → (checkLevelProgression g).level = 2) := by
  unfold checkLevelProgression
  refine ⟨?_, ?_, ?_, ?_, ?_, ?_⟩
  · simp only []; split_ifs <;> rfl
  · simp only []; split_ifs <;> simp
  · simp only []; split_ifs <;> simp
  · simp only []; split_ifs <;> rfl
  · intro h1 h2; simp [h1, h2]
  · intro h1 h2; simp [h1, h2]

/-- C6, instance: level 1 with score 250. -/
theorem checkLevelProgression_single_step_witness :
    (checkLevelProgression { freshGame with score := 250 }).level = 2 :=
  (checkLevelProgression_single_step { freshGame with score := 250 }).2.2.2.2.2 rfl rfl

/-- C7: `shoot` appends exactly one bullet (at the horizontal centre of the
player, y = player.y, width 4, speed 8) and records `lastShot = now` when
`now - lastShot > shootCooldown`, and changes nothing otherwise; so a second
call at most `shootCooldown` after a call that fired creates no bullet. -/
theorem shoot_respects_cooldown (now : ℤ) (g : SpaceDefenderGame) :
    (now - g.lastShot > g.shootCooldown →
      shoot now g =
        { g with
          bullets := g.bullets ++
            [{ x := g.player.x + g.player.width / 2 - 2, y := g.player.y, width := 4,
               height := 10, speed := 8, color := Color.hex "#00ff00" }]
          lastShot := now }) ∧
    (¬ now - g.lastShot > g.shootCooldown → shoot now g = g) ∧
    (∀ t2 : ℤ, now - g.lastShot > g.shootCooldown → t2 - now ≤ g.shootCooldown →
      shoot t2 (shoot now g) = shoot now g ∧
      (shoot t2 (shoot now g)).bullets.length = g.bullets.length + 1) := by
  refine ⟨fun h => by simp [shoot, h], fun h => by simp [shoot, h], fun t2 h1 h2 => ?_⟩
  have h3 : ¬ t2 - now > g.shootCooldown := not_lt.mpr h2
  constructor
  · simp only [shoot, h1, if_true, h3, if_false]
  · simp only [shoot, h1, if_true, h3, if_false]
    simp

/-- C7, instance: two fire actions 100 ms apart at normal difficulty (cooldown
200 ms) leave one bullet. -/
theorem shoot_respects_cooldown_witness :
    (shoot 1100 (shoot 1000 (updateDifficulty freshGame))).bullets.length = 1 :=
  ((shoot_respects_cooldown 1000 (updateDifficulty freshGame)).2.2 1100
    (by decide) (by decide)).2

/-- C8: `updateEnemies` adds each enemy's speed to its y, keeps in order exactly
the enemies whose new y is not greater than the canvas height, and lowers
lives by the number of enemies removed; a single enemy at y = canvasHeight + 1
(moving down) is removed and costs exactly one life. -/
theorem updateEnemies_exit_costs_one_life (g : SpaceDefenderGame) :
    (updateEnemies g).enemies =
      (g.enemies.map fun enemy => ({ enemy with y := enemy.y + enemy.speed } : Enemy)).filter
        (fun enemy => !decide (enemy.y > g.canvas.height)) ∧
    (updateEnemies g).lives = g.lives -
      ((g.enemies.map fun enemy => ({ enemy with y := enemy.y + enemy.speed } : Enemy)).filter
        (fun enemy => decide (enemy.y > g.canvas.height))).length ∧
    (updateEnemies g).enemies.length ≤ g.enemies.length ∧
    (updateEnemies g).lives =
      g.lives - ((g.enemies.length : ℤ) - ((updateEnemies g).enemies.length : ℤ)) ∧
    (∀ enemy : Enemy, g.enemies = [enemy] → enemy.y = g.canvas.height + 1 → 0 ≤ enemy.speed →
      (updateEnemies g).enemies = [] ∧ (updateEnemies g).lives = g.lives - 1) := by
  have hspec := updateEnemiesFilter_spec g.enemies g
  have he : (updateEnemies g).enemies =
      (g.enemies.map fun enemy => ({ enemy with y := enemy.y + enemy.speed } : Enemy)).filter
        (fun enemy => !decide (enemy.y > g.canvas.height)) := by
    simp only [updateEnemies]; exact hspec.1
  have hl : (updateEnemies g).lives = g.lives -
      ((g.enemies.map fun enemy => ({ enemy with y := enemy.y + enemy.speed } : Enemy)).filter
        (fun enemy => decide (enemy.y > g.canvas.height))).length := by
    simp only [updateEnemies]; rw [hspec.2]
  have hlen := length_filter_add_length_filter_not
    (fun enemy : Enemy => decide (enemy.y > g.canvas.height))
    (g.enemies.map fun enemy => ({ enemy with y := enemy.y + enemy.speed } : Enemy))
  rw [List.length_map] at hlen
  refine ⟨he, hl, ?_, ?_, ?_⟩
  · rw [he]; omega
  · rw [hl, he]; omega
  · intro enemy hg hy hsp
    rw [he, hl, hg]
    have : enemy.y + enemy.speed > g.canvas.height := by linarith
    simp [this]

/-- C8, instance: one enemy at y = 601 on a canvas 600 high. -/
theorem updateEnemies_exit_costs_one_life_witness :
    (updateEnemies exitingEnemyGame).enemies = [] ∧
      (updateEnemies exitingEnemyGame).lives = exitingEnemyGame.lives - 1 :=
  (updateEnemies_exit_costs_one_life exitingEnemyGame).2.2.2.2 (sampleEnemy 0 601 1) rfl
    (by simp [sampleEnemy, exitingEnemyGame, freshGame, init, createPlayer]; norm_num)
    (by simp [sampleEnemy])

/-- C9: the bullet-enemy pass removes k bullets and k enemies for some
k <= min(#bullets, #enemies), adds 10 k to the score and appends 8 k particles;
the stores it leaves are sublists of the original ones, namely those of
`resolveHits`: bullets are resolved from the last to the first, and each is
either kept (no enemy still present overlaps it) or consumed together with the
highest-index enemy still present that it overlaps. -/
theorem bulletEnemyCollisions_matched_pairs (rnd : ℕ → ℚ) (g : SpaceDefenderGame) :
    (∃ (k : ℕ) (ps : List Particle),
      k ≤ min g.bullets.length g.enemies.length ∧
      (bulletEnemyCollisions rnd g).bullets.length + k = g.bullets.length ∧
      (bulletEnemyCollisions rnd g).enemies.length + k = g.enemies.length ∧
      (bulletEnemyCollisions rnd g).score = g.score + 10 * k ∧
      (bulletEnemyCollisions rnd g).particles = g.particles ++ ps ∧
      ps.length = 8 * k) ∧
    (bulletEnemyCollisions rnd g).bullets.Sublist g.bullets ∧
    (bulletEnemyCollisions rnd g).enemies.Sublist g.enemies ∧
    (bulletEnemyCollisions rnd g).bullets = (resolveHits g.bullets g.enemies).1 ∧
    (bulletEnemyCollisions rnd g).enemies = (resolveHits g.bullets g.enemies).2 ∧
    (∀ (b : Bullet) (kept : List Bullet) (es : List Enemy),
      (resolveStep b (kept, es) = (b :: kept, es) ∧
        ∀ (j : ℕ) (e : Enemy), es[j]? = some e → isColliding b.toRect e.toRect = false) ∨
      (∃ j : ℕ, resolveStep b (kept, es) = (kept, es.eraseIdx j) ∧
        IsLastHit b.toRect es j)) := by
  obtain ⟨k, ps, hlen, h1, h2, h3⟩ := bulletEnemyOuter_spec rnd g.bullets.length g (le_refl _)
  simp only [List.take_length, List.drop_length] at h1 h2 h3
  have hsub := resolve_sublist g.bullets [] g.enemies
  simp only [List.append_nil] at hsub
  have hb : (bulletEnemyCollisions rnd g).bullets = (resolveHits g.bullets g.enemies).1 := by
    rw [bulletEnemyCollisions, h3]; rfl
  have he : (bulletEnemyCollisions rnd g).enemies = (resolveHits g.bullets g.enemies).2 := by
    rw [bulletEnemyCollisions, h3]; rfl
  refine ⟨⟨k, ps, ?_, ?_, ?_, ?_, ?_, hlen⟩, ?_, ?_, hb, he, ?_⟩
  · exact le_min (by omega) (by omega)
  · rw [hb]; exact h1
  · rw [he]; exact h2
  · rw [bulletEnemyCollisions, h3]
  · rw [bulletEnemyCollisions, h3]
  · rw [hb]; exact hsub.1
  · rw [he]; exact hsub.2
  · intro b kept es
    cases hl : lastHit b.toRect es with
    | none =>
      left
      exact ⟨by simp only [resolveStep, hl], lastHit_none b.toRect es hl⟩
    | some j =>
      right
      exact ⟨j, by simp only [resolveStep, hl], lastHit_some b.toRect es j hl⟩

/-- C10: the player-enemy pass changes nothing when no enemy overlaps the
player; otherwise it removes exactly the highest-index overlapping enemy,
lowers lives by exactly 1, appends exactly 8 particles, and sets the phase to
gameOver exactly when the resulting lives are <= 0, however many enemies
overlap the player. -/
theorem playerEnemyCollisions_one_hit (rnd : ℕ → ℚ) (g : SpaceDefenderGame) :
    ((∀ (j : ℕ) (e : Enemy), g.enemies[j]? = some e →
        isColliding g.player.toRect e.toRect = false) →
      playerEnemyCollisions rnd g = g) ∧
    (∀ j : ℕ, IsLastHit g.player.toRect g.enemies j →
      (∃ ps : List Particle, ps.length = 8 ∧
        playerEnemyCollisions rnd g =
          { g with
            enemies := g.enemies.eraseIdx j
            lives := g.lives - 1
            particles := g.particles ++ ps
            randomCalls := g.randomCalls + 24
            gameState := if g.lives - 1 ≤ 0 then Phase.gameOver else g.gameState }) ∧
      (playerEnemyCollisions rnd g).enemies.length + 1 = g.enemies.length ∧
      (playerEnemyCollisions rnd g).lives = g.lives - 1 ∧
      (g.gameState ≠ Phase.gameOver →
        ((playerEnemyCollisions rnd g).gameState = Phase.gameOver ↔
          (playerEnemyCollisions rnd g).lives ≤ 0))) ∧
    ((∀ (j : ℕ) (e : Enemy), g.enemies[j]? = some e →
        isColliding g.player.toRect e.toRect = false) ∨
      ∃ j : ℕ, IsLastHit g.player.toRect g.enemies j) := by
  refine ⟨fun h => ?_, fun j hj => ?_, ?_⟩
  · exact playerEnemyLoop_miss rnd _ g (le_refl _) (fun j e _ he => h j e he)
  · have hlt := isLastHit_lt_length _ _ _ hj
    obtain ⟨⟨e, he, hc⟩, hmax⟩ := hj
    obtain ⟨ps, hlen, hps⟩ := playerEnemyLoop_hit rnd _ g j e (le_refl _) hlt he hc
      (fun j' e' h1 _ h3 => hmax j' e' h1 h3)
    have hps' : playerEnemyCollisions rnd g = _ := hps
    refine ⟨⟨ps, hlen, hps'⟩, ?_, ?_, ?_⟩
    · rw [hps']
      simp only [List.length_eraseIdx, if_pos hlt]
      omega
    · rw [hps']
    · intro hne
      rw [hps']
      simp only
      split_ifs with hl
      · simp [hl]
      · simp [hl, hne]
  · cases hl : lastHit g.player.toRect g.enemies with
    | none => exact Or.inl (lastHit_none _ _ hl)
    | some j => exact Or.inr ⟨j, lastHit_some _ _ j hl⟩

/-- C10, instance: two enemies overlap the player; one is removed, one life
is lost. -/
theorem playerEnemyCollisions_one_hit_witness :
    (playerEnemyCollisions sampleRandom crowdedGame).enemies.length + 1
        = crowdedGame.enemies.length ∧
      (playerEnemyCollisions sampleRandom crowdedGame).lives = crowdedGame.lives - 1 :=
  let h := (playerEnemyCollisions_one_hit sampleRandom crowdedGame).2.1 1
    ((lastHit_eq_some_iff _ _ _).mp (by
      simp [lastHit, crowdedGame, freshGame, init, createPlayer, sampleEnemy, isColliding]
      norm_num))
  ⟨h.2.1, h.2.2.1⟩

/-! ## Helper lemmas for the session invariants -/

/-- The overlap test as a conjunction of four strict comparisons. -/
theorem isColliding_true_iff (r1 r2 : Rect) :
    isColliding r1 r2 = true ↔
      r1.x < r2.x + r2.width ∧ r1.x + r1.width > r2.x ∧
      r1.y < r2.y + r2.height ∧ r1.y + r1.height > r2.y := by
  simp [isColliding, and_assoc]

/-- After resolution no bullet kept overlaps an enemy kept. -/
theorem resolve_no_overlap (xs : List Bullet) (es : List Enemy) :
    ∀ b ∈ (xs.foldr resolveStep ([], es)).1, ∀ e ∈ (xs.foldr resolveStep ([], es)).2,
      isColliding b.toRect e.toRect = false := by
  induction xs with
  | nil => intro b hb; simp at hb
  | cons b0 rest ih =>
    simp only [List.foldr_cons, resolveStep]
    cases hl : lastHit b0.toRect (List.foldr resolveStep ([], es) rest).2 with
    | none =>
      intro b hb e he
      simp only [List.mem_cons] at hb
      rcases hb with rfl | hb
      · obtain ⟨j, hj⟩ := List.getElem?_of_mem he
        exact lastHit_none _ _ hl j e hj
      · exact ih b hb e he
    | some j =>
      intro b hb e he
      exact ih b hb e ((List.eraseIdx_sublist _ _).subset he)

/-- Only the player is written by `updatePlayer`. -/
theorem updatePlayer_shape (g : SpaceDefenderGame) :
    updatePlayer g = { g with player := (updatePlayer g).player } := by
  unfold updatePlayer
  by_cases hl : "ArrowLeft" ∈ g.keys ∧ g.player.x > 0
  · simp only [hl, and_self, if_true]
    split_ifs <;> rfl
  · simp only [hl, if_false]
    split_ifs <;> rfl

/-- Only enemies, lives and phase are written by `updateEnemies`. -/
theorem updateEnemies_shape (g : SpaceDefenderGame) :
    updateEnemies g =
      { g with
        enemies := (updateEnemies g).enemies
        lives := (updateEnemies g).lives
        gameState := (updateEnemies g).gameState } := by
  have h := (updateEnemiesFilter_spec g.enemies g).2
  simp only [updateEnemies]
  rw [h]

/-- Fields written by the bullet-enemy pass; `k` counts the hits. -/
theorem bulletEnemyCollisions_shape (rnd : ℕ → ℚ) (g : SpaceDefenderGame) :
    ∃ (k : ℕ) (ps : List Particle),
      bulletEnemyCollisions rnd g =
        { g with
          bullets := (bulletEnemyCollisions rnd g).bullets
          enemies := (bulletEnemyCollisions rnd g).enemies
          score := g.score + 10 * k
          particles := g.particles ++ ps
          randomCalls := g.randomCalls + 24 * k } := by
  obtain ⟨k, ps, _, _, _, h3⟩ := bulletEnemyOuter_spec rnd g.bullets.length g (le_refl _)
  refine ⟨k, ps, ?_⟩
  simp only [bulletEnemyCollisions]
  rw [h3]

/-- The player-enemy pass either changes nothing or takes one enemy and one life. -/
theorem playerEnemyCollisions_cases (rnd : ℕ → ℚ) (g : SpaceDefenderGame) :
    playerEnemyCollisions rnd g = g ∨
    ∃ (j : ℕ) (ps : List Particle),
      playerEnemyCollisions rnd g =
        { g with
          enemies := g.enemies.eraseIdx j
          lives := g.lives - 1
          particles := g.particles ++ ps
          randomCalls := g.randomCalls + 24
          gameState := if g.lives - 1 ≤ 0 then Phase.gameOver else g.gameState } := by
  cases hl : lastHit g.player.toRect g.enemies with
  | none =>
    left
    exact playerEnemyLoop_miss rnd _ g (le_refl _)
      (fun j e _ he => lastHit_none _ _ hl j e he)
  | some j =>
    right
    have hj := lastHit_some _ _ j hl
    have hlt := isLastHit_lt_length _ _ _ hj
    obtain ⟨⟨e, he, hc⟩, hmax⟩ := hj
    obtain ⟨ps, _, hps⟩ := playerEnemyLoop_hit rnd _ g j e (le_refl _) hlt he hc
      (fun j' e' h1 _ h3 => hmax j' e' h1 h3)
    exact ⟨j, ps, hps⟩

/-- Losing a life with the game-over test that follows keeps `LivesInv`. -/
theorem livesInv_lose_life (g : SpaceDefenderGame) (h : LivesInv g) (p : Phase)
    (hp : p = if g.lives - 1 ≤ 0 then Phase.gameOver else g.gameState) :
    (p = Phase.gameOver ↔ g.lives - 1 ≤ 0) := by
  unfold LivesInv at h
  subst hp
  split_ifs with hl
  · simp [hl]
  · constructor
    · intro hg
      have := h.mp hg
      omega
    · intro h'; exact absurd h' hl

/-- The exit scan keeps `LivesInv`. -/
theorem updateEnemiesFilter_livesInv (enemies : List Enemy) (g : SpaceDefenderGame)
    (h : LivesInv g) : LivesInv (updateEnemiesFilter enemies g).2 := by
  induction enemies generalizing g with
  | nil => simpa [updateEnemiesFilter] using h
  | cons enemy rest ih =>
    by_cases hy : enemy.y + enemy.speed > g.canvas.height
    · simp only [updateEnemiesFilter, hy, if_true]
      apply ih
      by_cases hl : g.lives - 1 ≤ 0
      · rw [if_pos hl]
        exact ⟨fun _ => hl, fun _ => rfl⟩
      · rw [if_neg hl]
        exact livesInv_lose_life g h g.gameState (by rw [if_neg hl])
    · simp only [updateEnemiesFilter, hy, if_false]
      exact ih g h

/-- Step 3 of the tick keeps `LivesInv`. -/
theorem updateEnemies_livesInv (g : SpaceDefenderGame) (h : LivesInv g) :
    LivesInv (updateEnemies g) :=
  updateEnemiesFilter_livesInv g.enemies g h

/-- The player-enemy pass keeps `LivesInv`. -/
theorem playerEnemyCollisions_livesInv (rnd : ℕ → ℚ) (g : SpaceDefenderGame)
    (h : LivesInv g) : LivesInv (playerEnemyCollisions rnd g) := by
  rcases playerEnemyCollisions_cases rnd g with h1 | ⟨j, ps, h1⟩
  · rw [h1]; exact h
  · rw [h1]
    exact livesInv_lose_life g h _ rfl

/-- The bullet-enemy pass keeps `LivesInv`. -/
theorem bulletEnemyCollisions_livesInv (rnd : ℕ → ℚ) (g : SpaceDefenderGame)
    (h : LivesInv g) : LivesInv (bulletEnemyCollisions rnd g) := by
  obtain ⟨k, ps, h1⟩ := bulletEnemyCollisions_shape rnd g
  rw [h1]; exact h

/-- A whole tick keeps `LivesInv`. -/
theorem update_livesInv (rnd : ℕ → ℚ) (g : SpaceDefenderGame) (h : LivesInv g) :
    LivesInv (update rnd g) := by
  have h1 : LivesInv (updatePlayer g) := by rw [updatePlayer_shape]; exact h
  have h2 : LivesInv (updateBullets (updatePlayer g)) := h1
  have h3 := updateEnemies_livesInv _ h2
  have h4 : LivesInv (updatePowerUps (updateParticles
      (updateEnemies (updateBullets (updatePlayer g))))) := h3
  have h5 := playerEnemyCollisions_livesInv rnd _ (bulletEnemyCollisions_livesInv rnd _ h4)
  unfold update checkLevelProgression checkCollisions
  simp only []
  split_ifs
  · exact h5
  · exact h5

/-- A frame keeps `LivesInv`. -/
theorem gameLoop_livesInv (rnd : ℕ → ℚ) (t : ℚ) (g : SpaceDefenderGame) (h : LivesInv g) :
    LivesInv (gameLoop rnd t g) := by
  unfold gameLoop
  split_ifs
  · exact h
  · exact update_livesInv rnd _ h

/-- A new session satisfies `LivesInv`. -/
theorem startGame_livesInv (rnd : ℕ → ℚ) (g : SpaceDefenderGame) :
    LivesInv (startGame rnd g) := by
  unfold startGame
  apply gameLoop_livesInv
  simp [LivesInv, createPlayer]

/-- Pausing and resuming keep `LivesInv`. -/
theorem togglePause_livesInv (rnd : ℕ → ℚ) (g : SpaceDefenderGame) (h : LivesInv g) :
    LivesInv (togglePause rnd g) := by
  unfold togglePause
  split_ifs with h1 h2
  · unfold LivesInv at h ⊢
    simp only [h1] at h
    simp only []
    constructor
    · intro hc; cases hc
    · intro hl; exact absurd (h.mpr hl) (by simp)
  · apply gameLoop_livesInv
    unfold LivesInv at h ⊢
    simp only [h2] at h
    simp only []
    constructor
    · intro hc; cases hc
    · intro hl; exact absurd (h.mpr hl) (by simp)
  · exact h

/-- Every action keeps `LivesInv`. -/
theorem perform_livesInv (rnd : ℕ → ℚ) (a : Action) (g : SpaceDefenderGame)
    (h : LivesInv g) : LivesInv (perform rnd a g) := by
  cases a with
  | keydown code now =>
    have hshoot : ∀ g' : SpaceDefenderGame, LivesInv g' → LivesInv (shoot now g') := by
      intro g' hg'
      unfold shoot
      split_ifs
      · exact hg'
      · exact hg'
    have key : ∀ g1 : SpaceDefenderGame, LivesInv g1 →
        LivesInv
          (if code = "KeyP" then
            togglePause rnd
              (if code = "Space" then
                if g1.gameState = Phase.playing then shoot now g1 else g1
              else g1)
          else
            (if code = "Space" then
              if g1.gameState = Phase.playing then shoot now g1 else g1
            else g1)) := by
      intro g1 h1
      split_ifs
      · exact togglePause_livesInv rnd _ (hshoot _ h1)
      · exact togglePause_livesInv rnd _ h1
      · exact togglePause_livesInv rnd _ h1
      · exact hshoot _ h1
      · exact h1
      · exact h1
    exact key _ h
  | keyup code => exact h
  | startGame => exact startGame_livesInv rnd g
  | restartGame => exact startGame_livesInv rnd g
  | togglePause => exact togglePause_livesInv rnd g h
  | toggleMute => exact h
  | changeDifficulty d =>
    simp only [perform, changeDifficulty, updateDifficulty]
    cases d <;> exact h
  | shoot now =>
    simp only [perform, shoot]
    split_ifs
    · exact h
    · exact h
  | spawn =>
    simp only [perform, spawnCallback]
    split_ifs
    · exact h
    · exact h
  | tick t => exact gameLoop_livesInv rnd t g h

/-- Induction over the actions that led to a state. -/
theorem reachableBy_induction (rnd : ℕ → ℚ) (allowed : Action → Prop)
    (g0 : SpaceDefenderGame) (P : SpaceDefenderGame → Prop) (h0 : P g0)
    (hstep : ∀ (a : Action) (g : SpaceDefenderGame), allowed a → P g → P (perform rnd a g))
    (g : SpaceDefenderGame) (h : ReachableBy rnd allowed g0 g) : P g := by
  induction h with
  | start => exact h0
  | step a g ha _ ih => exact hstep a g ha ih

/-- Running a list of allowed actions stays within the reachable states. -/
theorem reachableBy_runTrace (rnd : ℕ → ℚ) (allowed : Action → Prop) (g0 : SpaceDefenderGame)
    (trace : List Action) (g : SpaceDefenderGame) (hall : ∀ a ∈ trace, allowed a)
    (h : ReachableBy rnd allowed g0 g) : ReachableBy rnd allowed g0 (runTrace rnd trace g) := by
  induction trace generalizing g with
  | nil => exact h
  | cons a rest ih =>
    rw [runTrace]
    exact ih _ (fun b hb => hall b (List.mem_cons_of_mem a hb))
      (ReachableBy.step a g (hall a (List.mem_cons_self a rest)) h)

/-- Steps 1 to 5 of the tick write neither score nor level. -/
theorem prelude_score_level (g : SpaceDefenderGame) :
    (updatePowerUps (updateParticles (updateEnemies (updateBullets (updatePlayer g))))).score
        = g.score ∧
    (updatePowerUps (updateParticles (updateEnemies (updateBullets (updatePlayer g))))).level
        = g.level := by
  have h1 : (updatePlayer g).score = g.score ∧ (updatePlayer g).level = g.level := by
    rw [updatePlayer_shape]; exact ⟨rfl, rfl⟩
  have h2 : ∀ s : SpaceDefenderGame,
      (updateEnemies s).score = s.score ∧ (updateEnemies s).level = s.level := by
    intro s; rw [updateEnemies_shape]; exact ⟨rfl, rfl⟩
  have h3 := h2 (updateBullets (updatePlayer g))
  exact ⟨h3.1.trans h1.1, h3.2.trans h1.2⟩

/-- Collision resolution adds a multiple of 10 to the score and keeps the level. -/
theorem checkCollisions_score_level (rnd : ℕ → ℚ) (g : SpaceDefenderGame) :
    ∃ k : ℕ, (checkCollisions rnd g).score = g.score + 10 * k ∧
      (checkCollisions rnd g).level = g.level := by
  obtain ⟨k, ps, hb⟩ := bulletEnemyCollisions_shape rnd g
  have hs : (bulletEnemyCollisions rnd g).score = g.score + 10 * k := by rw [hb]
  have hl : (bulletEnemyCollisions rnd g).level = g.level := by rw [hb]
  refine ⟨k, ?_, ?_⟩
  · rcases playerEnemyCollisions_cases rnd (bulletEnemyCollisions rnd g) with h | ⟨j, qs, h⟩
    · rw [checkCollisions, h, hs]
    · rw [checkCollisions, h]; exact hs
  · rcases playerEnemyCollisions_cases rnd (bulletEnemyCollisions rnd g) with h | ⟨j, qs, h⟩
    · rw [checkCollisions, h, hl]
    · rw [checkCollisions, h]; exact hl

/-- A whole tick is one `ScoreStep`. -/
theorem update_scoreStep (rnd : ℕ → ℚ) (g : SpaceDefenderGame) :
    ScoreStep g.score g.level (update rnd g) := by
  obtain ⟨k, hs, hl⟩ := checkCollisions_score_level rnd
    (updatePowerUps (updateParticles (updateEnemies (updateBullets (updatePlayer g)))))
  rw [(prelude_score_level g).1] at hs
  rw [(prelude_score_level g).2] at hl
  refine ⟨k, ?_, ?_⟩
  · unfold update checkLevelProgression
    simp only []
    split_ifs
    · exact hs
    · exact hs
  · unfold update checkLevelProgression
    simp only []
    split_ifs with hc
    · right
      refine ⟨by simp only [hl], ?_⟩
      rw [hl] at hc
      exact hc
    · left; exact hl

/-- Nothing happening is a `ScoreStep`. -/
theorem scoreStep_refl (g : SpaceDefenderGame) : ScoreStep g.score g.level g :=
  ⟨0, by simp, Or.inl rfl⟩

/-- A frame is one `ScoreStep`. -/
theorem gameLoop_scoreStep (rnd : ℕ → ℚ) (t : ℚ) (g : SpaceDefenderGame) :
    ScoreStep g.score g.level (gameLoop rnd t g) := by
  unfold gameLoop
  split_ifs
  · exact scoreStep_refl g
  · exact update_scoreStep rnd { g with lastTime := t }

/-- Pausing or resuming is one `ScoreStep`. -/
theorem togglePause_scoreStep (rnd : ℕ → ℚ) (g : SpaceDefenderGame) :
    ScoreStep g.score g.level (togglePause rnd g) := by
  unfold togglePause
  split_ifs
  · exact scoreStep_refl { g with gameState := Phase.paused }
  · exact gameLoop_scoreStep rnd 0 { g with gameState := Phase.playing }
  · exact scoreStep_refl g

/-- Shooting writes neither score nor level. -/
theorem shoot_score_level (now : ℤ) (g : SpaceDefenderGame) :
    (shoot now g).score = g.score ∧ (shoot now g).level = g.level := by
  unfold shoot
  split_ifs <;> exact ⟨rfl, rfl⟩

/-- Every action other than start and restart is one `ScoreStep`. -/
theorem perform_scoreStep (rnd : ℕ → ℚ) (a : Action) (g : SpaceDefenderGame)
    (ha : a.startsSession = false) : ScoreStep g.score g.level (perform rnd a g) := by
  cases a with
  | keydown code now =>
    have key : ∀ g1 : SpaceDefenderGame,
        ScoreStep g1.score g1.level
          (if code = "KeyP" then
            togglePause rnd
              (if code = "Space" then
                if g1.gameState = Phase.playing then shoot now g1 else g1
              else g1)
          else
            (if code = "Space" then
              if g1.gameState = Phase.playing then shoot now g1 else g1
            else g1)) := by
      intro g1
      have hs := shoot_score_level now g1
      split_ifs
      · rw [← hs.1, ← hs.2]; exact togglePause_scoreStep rnd _
      · exact togglePause_scoreStep rnd _
      · exact togglePause_scoreStep rnd _
      · rw [← hs.1, ← hs.2]; exact scoreStep_refl _
      · exact scoreStep_refl _
      · exact scoreStep_refl _
    exact key { g with keys := if code ∈ g.keys then g.keys else code :: g.keys }
  | keyup code => exact scoreStep_refl { g with keys := _ }
  | startGame => simp [Action.startsSession] at ha
  | restartGame => simp [Action.startsSession] at ha
  | togglePause => exact togglePause_scoreStep rnd g
  | toggleMute => exact scoreStep_refl { g with muted := _ }
  | changeDifficulty d =>
    simp only [perform, changeDifficulty, updateDifficulty]
    cases d <;> exact ⟨0, by simp, Or.inl rfl⟩
  | shoot now =>
    have hs := shoot_score_level now g
    show ScoreStep g.score g.level (shoot now g)
    rw [← hs.1, ← hs.2]; exact scoreStep_refl _
  | spawn =>
    simp only [perform, spawnCallback]
    split_ifs
    · exact ⟨0, by simp, Or.inl rfl⟩
    · exact scoreStep_refl g
  | tick t => exact gameLoop_scoreStep rnd t g

/-- A `ScoreStep` keeps `ScoreInv`. -/
theorem scoreStep_inv (g g' : SpaceDefenderGame) (h : ScoreInv g)
    (hs : ScoreStep g.score g.level g') : ScoreInv g' := by
  obtain ⟨⟨n, hn⟩, hl, hsc⟩ := h
  obtain ⟨k, hk, hlev⟩ := hs
  refine ⟨⟨n + k, by rw [hk, hn]; push_cast; ring⟩, ?_, ?_⟩
  · rcases hlev with h1 | ⟨h1, _⟩ <;> omega
  · rcases hlev with h1 | ⟨h1, h2⟩ <;> omega

/-- A `ScoreStep` lowers neither score nor level. -/
theorem scoreStep_mono (g g' : SpaceDefenderGame) (hs : ScoreStep g.score g.level g') :
    g.score ≤ g'.score ∧ g.level ≤ g'.level := by
  obtain ⟨k, hk, hlev⟩ := hs
  constructor
  · omega
  · rcases hlev with h1 | ⟨h1, _⟩ <;> omega

/-- A new session satisfies `ScoreInv`. -/
theorem startGame_scoreInv (rnd : ℕ → ℚ) (g : SpaceDefenderGame) :
    ScoreInv (startGame rnd g) := by
  unfold startGame
  apply scoreStep_inv _ _ _ (gameLoop_scoreStep rnd 0 _)
  exact ⟨⟨0, by simp [createPlayer]⟩, by simp [createPlayer], by simp [createPlayer]⟩

/-- A fresh explosion particle satisfies `ParticleInv`. -/
theorem explosionParticle_inv (rnd : ℕ → ℚ) (x y : ℚ) (c : ℕ) :
    ParticleInv (explosionParticle rnd x y c) :=
  ⟨by simp [explosionParticle], by simp [explosionParticle], by simp [explosionParticle],
    30, by simp [explosionParticle]⟩

/-- The explosion loop appends `n` fresh explosion particles. -/
theorem createExplosionLoop_particles (rnd : ℕ → ℚ) (x y : ℚ) (n : ℕ)
    (g : SpaceDefenderGame) :
    ∃ ps : List Particle, ps.length = n ∧
      (∀ p ∈ ps, ∃ c : ℕ, p = explosionParticle rnd x y c) ∧
      (createExplosionLoop rnd x y n g).particles = g.particles ++ ps := by
  induction n generalizing g with
  | zero => exact ⟨[], rfl, by simp, by simp [createExplosionLoop]⟩
  | succ n ih =>
    obtain ⟨ps, hlen, hall, hps⟩ := ih
      { g with
        particles := g.particles ++ [explosionParticle rnd x y g.randomCalls]
        randomCalls := g.randomCalls + 3 }
    refine ⟨explosionParticle rnd x y g.randomCalls :: ps, by simp [hlen], ?_, ?_⟩
    · intro p hp
      rcases List.mem_cons.mp hp with rfl | hp
      · exact ⟨_, rfl⟩
      · exact hall p hp
    · rw [createExplosionLoop, hps]
      simp

/-- An explosion keeps `ParticleInv` on the store. -/
theorem createExplosion_allInv (rnd : ℕ → ℚ) (x y : ℚ) (g : SpaceDefenderGame)
    (h : ∀ p ∈ g.particles, ParticleInv p) :
    ∀ p ∈ (createExplosion rnd x y g).particles, ParticleInv p := by
  obtain ⟨ps, _, hall, hps⟩ := createExplosionLoop_particles rnd x y 8 g
  intro p hp
  rw [createExplosion, hps] at hp
  rcases List.mem_append.mp hp with hp | hp
  · exact h p hp
  · obtain ⟨c, rfl⟩ := hall p hp
    exact explosionParticle_inv rnd x y c

/-- Particle store after an inner scan: untouched, or one explosion added. -/
theorem bulletEnemyInner_particles (rnd : ℕ → ℚ) (i n : ℕ) (g : SpaceDefenderGame) :
    (bulletEnemyInner rnd i n g).particles = g.particles ∨
    ∃ x y : ℚ, (bulletEnemyInner rnd i n g).particles = (createExplosion rnd x y g).particles := by
  induction n with
  | zero => exact Or.inl rfl
  | succ j ih =>
    rw [bulletEnemyInner]
    split
    · rename_i bullet enemy _ _
      by_cases hc : isColliding bullet.toRect enemy.toRect = true
      · rw [if_pos hc]
        refine Or.inr ⟨enemy.x + enemy.width / 2, enemy.y + enemy.height / 2, ?_⟩
        simp only []
      · rw [if_neg hc]
        exact ih
    · exact Or.inl rfl

/-- An inner scan keeps `ParticleInv` on the store. -/
theorem bulletEnemyInner_allInv (rnd : ℕ → ℚ) (i n : ℕ) (g : SpaceDefenderGame)
    (h : ∀ p ∈ g.particles, ParticleInv p) :
    ∀ p ∈ (bulletEnemyInner rnd i n g).particles, ParticleInv p := by
  rcases bulletEnemyInner_particles rnd i n g with h1 | ⟨x, y, h1⟩
  · rw [h1]; exact h
  · rw [h1]; exact createExplosion_allInv rnd x y g h

/-- The bullet-enemy pass keeps `ParticleInv` on the store. -/
theorem bulletEnemyOuter_allInv (rnd : ℕ → ℚ) (i : ℕ) (g : SpaceDefenderGame)
    (h : ∀ p ∈ g.particles, ParticleInv p) :
    ∀ p ∈ (bulletEnemyOuter rnd i g).particles, ParticleInv p := by
  induction i generalizing g with
  | zero => exact h
  | succ i ih =>
    rw [bulletEnemyOuter]
    exact ih _ (bulletEnemyInner_allInv rnd i _ g h)

/-- Particle store after the player scan: untouched, or one explosion added. -/
theorem playerEnemyLoop_particles (rnd : ℕ → ℚ) (n : ℕ) (g : SpaceDefenderGame) :
    (playerEnemyLoop rnd n g).particles = g.particles ∨
    ∃ x y : ℚ, (playerEnemyLoop rnd n g).particles = (createExplosion rnd x y g).particles := by
  induction n with
  | zero => exact Or.inl rfl
  | succ j ih =>
    rw [playerEnemyLoop]
    split
    · rename_i enemy _
      by_cases hc : isColliding g.player.toRect enemy.toRect = true
      · rw [if_pos hc]
        refine Or.inr ⟨enemy.x + enemy.width / 2, enemy.y + enemy.height / 2, ?_⟩
        simp only []
        split_ifs <;> rfl
      · rw [if_neg hc]
        exact ih
    · exact Or.inl rfl

/-- The player-enemy pass keeps `ParticleInv` on the store. -/
theorem playerEnemyLoop_allInv (rnd : ℕ → ℚ) (n : ℕ) (g : SpaceDefenderGame)
    (h : ∀ p ∈ g.particles, ParticleInv p) :
    ∀ p ∈ (playerEnemyLoop rnd n g).particles, ParticleInv p := by
  rcases playerEnemyLoop_particles rnd n g with h1 | ⟨x, y, h1⟩
  · rw [h1]; exact h
  · rw [h1]; exact createExplosion_allInv rnd x y g h

/-- Ageing the particles keeps `ParticleInv` on the store. -/
theorem updateParticles_allInv (g : SpaceDefenderGame)
    (h : ∀ p ∈ g.particles, ParticleInv p) :
    ∀ p ∈ (updateParticles g).particles, ParticleInv p := by
  intro p hp
  simp only [updateParticles, List.mem_filter, List.mem_map, decide_eq_true_eq] at hp
  obtain ⟨⟨q, hq, rfl⟩, hpos⟩ := hp
  obtain ⟨h1, h2, h3, n, hn⟩ := h q hq
  simp only at hpos
  have hn2 : 2 ≤ n := by
    rw [hn] at hpos
    have : (1 : ℚ) < n := by linarith
    exact_mod_cast this
  refine ⟨?_, ?_, rfl, n - 1, ?_⟩
  · show 1 ≤ q.life - 1
    rw [hn]
    have : (2 : ℚ) ≤ n := by exact_mod_cast hn2
    linarith
  · show q.life - 1 ≤ q.maxLife
    linarith
  · show q.life - 1 = ((n - 1 : ℕ) : ℚ)
    rw [hn, Nat.cast_sub (by omega)]
    simp

/-- A whole tick keeps `ParticleInv` on the store. -/
theorem update_allInv (rnd : ℕ → ℚ) (g : SpaceDefenderGame)
    (h : ∀ p ∈ g.particles, ParticleInv p) :
    ∀ p ∈ (update rnd g).particles, ParticleInv p := by
  have h1 : ∀ p ∈ (updatePlayer g).particles, ParticleInv p := by
    rw [updatePlayer_shape]; exact h
  have h2 : ∀ p ∈ (updateEnemies (updateBullets (updatePlayer g))).particles,
      ParticleInv p := by
    rw [updateEnemies_shape]; exact h1
  have h3 := updateParticles_allInv _ h2
  have h4 : ∀ p ∈ (updatePowerUps (updateParticles
      (updateEnemies (updateBullets (updatePlayer g))))).particles, ParticleInv p := h3
  have h5 : ∀ p ∈ (checkCollisions rnd (updatePowerUps (updateParticles
      (updateEnemies (updateBullets (updatePlayer g)))))).particles, ParticleInv p :=
    playerEnemyLoop_allInv rnd _ _ (bulletEnemyOuter_allInv rnd _ _ h4)
  unfold update checkLevelProgression
  simp only []
  split_ifs
  · exact h5
  · exact h5

/-- A frame keeps `ParticleInv` on the store. -/
theorem gameLoop_allInv (rnd : ℕ → ℚ) (t : ℚ) (g : SpaceDefenderGame)
    (h : ∀ p ∈ g.particles, ParticleInv p) :
    ∀ p ∈ (gameLoop rnd t g).particles, ParticleInv p := by
  unfold gameLoop
  split_ifs
  · exact h
  · exact update_allInv rnd { g with lastTime := t } h

/-- Pausing and resuming keep `ParticleInv` on the store. -/
theorem togglePause_allInv (rnd : ℕ → ℚ) (g : SpaceDefenderGame)
    (h : ∀ p ∈ g.particles, ParticleInv p) :
    ∀ p ∈ (togglePause rnd g).particles, ParticleInv p := by
  unfold togglePause
  split_ifs
  · exact h
  · exact gameLoop_allInv rnd 0 { g with gameState := Phase.playing } h
  · exact h

/-- Shooting does not write the particle store. -/
theorem shoot_particles (now : ℤ) (g : SpaceDefenderGame) :
    (shoot now g).particles = g.particles := by
  unfold shoot
  split_ifs <;> rfl

/-- Every action keeps `ParticleInv` on the store. -/
theorem perform_allInv (rnd : ℕ → ℚ) (a : Action) (g : SpaceDefenderGame)
    (h : ∀ p ∈ g.particles, ParticleInv p) :
    ∀ p ∈ (perform rnd a g).particles, ParticleInv p := by
  cases a with
  | keydown code now =>
    have key : ∀ g1 : SpaceDefenderGame, (∀ p ∈ g1.particles, ParticleInv p) →
        ∀ p ∈
          (if code = "KeyP" then
            togglePause rnd
              (if code = "Space" then
                if g1.gameState = Phase.playing then shoot now g1 else g1
              else g1)
          else
            (if code = "Space" then
              if g1.gameState = Phase.playing then shoot now g1 else g1
            else g1)).particles, ParticleInv p := by
      intro g1 h1
      have hs : ∀ p ∈ (shoot now g1).particles, ParticleInv p := by
        rw [shoot_particles]; exact h1
      split_ifs
      · exact togglePause_allInv rnd _ hs
      · exact togglePause_allInv rnd _ h1
      · exact togglePause_allInv rnd _ h1
      · exact hs
      · exact h1
      · exact h1
    exact key { g with keys := if code ∈ g.keys then g.keys else code :: g.keys } h
  | keyup code => exact h
  | startGame =>
    show ∀ p ∈ (startGame rnd g).particles, ParticleInv p
    unfold startGame
    apply gameLoop_allInv
    intro p hp
    simp [createPlayer] at hp
  | restartGame =>
    show ∀ p ∈ (startGame rnd g).particles, ParticleInv p
    unfold startGame
    apply gameLoop_allInv
    intro p hp
    simp [createPlayer] at hp
  | togglePause => exact togglePause_allInv rnd g h
  | toggleMute => exact h
  | changeDifficulty d =>
    simp only [perform, changeDifficulty, updateDifficulty]
    cases d <;> exact h
  | shoot now =>
    show ∀ p ∈ (shoot now g).particles, ParticleInv p
    rw [shoot_particles]; exact h
  | spawn =>
    simp only [perform, spawnCallback]
    split_ifs
    · exact h
    · exact h
  | tick t => exact gameLoop_allInv rnd t g h

/-! ## Claims C11 to C20 -/

/-- C11: in phase start or gameOver, `togglePause` and a `gameLoop` frame each
return the game unchanged; from gameOver no action other than start and restart
changes the phase; `toggleMute` flips `muted` and changes nothing else, in
every phase. -/
theorem idle_phases_frame (rnd : ℕ → ℚ) (g : SpaceDefenderGame) :
    (g.gameState = Phase.start ∨ g.gameState = Phase.gameOver →
      togglePause rnd g = g ∧ (∀ currentTime : ℚ, gameLoop rnd currentTime g = g)) ∧
    (g.gameState = Phase.gameOver →
      ∀ a : Action, a.startsSession = false → (perform rnd a g).gameState = Phase.gameOver) ∧
    toggleMute g = { g with muted := !g.muted } ∧
    (toggleMute g).gameState = g.gameState := by
  refine ⟨?_, ?_, rfl, rfl⟩
  · intro h
    rcases h with h | h
    · exact ⟨by simp [togglePause, h], fun t => by simp [gameLoop, h]⟩
    · exact ⟨by simp [togglePause, h], fun t => by simp [gameLoop, h]⟩
  · intro h a ha
    cases a with
    | keydown code now =>
      simp only [perform, keydown]
      split_ifs <;> simp_all [togglePause, shoot]
    | keyup code => simpa [perform, keyup] using h
    | startGame => simp [Action.startsSession] at ha
    | restartGame => simp [Action.startsSession] at ha
    | togglePause => simp [perform, togglePause, h]
    | toggleMute => simpa [perform, toggleMute] using h
    | changeDifficulty d =>
      simp only [perform, changeDifficulty, updateDifficulty]
      cases d <;> simpa using h
    | shoot now =>
      simp only [perform, shoot]
      split_ifs <;> simpa using h
    | spawn => simp [perform, spawnCallback, h]
    | tick t => simp [perform, gameLoop, h]

/-- C11, instance: the game as constructed (phase start). -/
theorem idle_phases_frame_witness :
    togglePause sampleRandom (init { width := 800, height := 600 })
        = init { width := 800, height := 600 } ∧
      (∀ currentTime : ℚ, gameLoop sampleRandom currentTime (init { width := 800, height := 600 })
        = init { width := 800, height := 600 }) :=
  (idle_phases_frame sampleRandom (init { width := 800, height := 600 })).1 (Or.inl rfl)

/-- C12: in every state reachable from the constructed game by any actions
(start, restart, pause toggles, shots, key events, spawns, frames, mute and
difficulty changes), the phase is gameOver if and only if lives <= 0; hence
lives >= 1 whenever the phase is playing or paused. -/
theorem gameOver_iff_no_lives (rnd : ℕ → ℚ) (canvas : Canvas) (g : SpaceDefenderGame)
    (h : Reachable rnd canvas g) :
    (g.gameState = Phase.gameOver ↔ g.lives ≤ 0) ∧
    (g.gameState = Phase.playing ∨ g.gameState = Phase.paused → 1 ≤ g.lives) := by
  have hinv : LivesInv g :=
    reachableBy_induction rnd _ _ LivesInv (by simp [LivesInv, init, createPlayer])
      (fun a g' _ hg' => perform_livesInv rnd a g' hg') g h
  refine ⟨hinv, fun hp => ?_⟩
  unfold LivesInv at hinv
  by_contra hl
  have : g.gameState = Phase.gameOver := hinv.mpr (by omega)
  rcases hp with hp | hp <;> rw [this] at hp <;> cases hp

/-- C12, instance: the session in which three enemies reach the player one
after the other ends in gameOver with no life left. -/
theorem gameOver_iff_no_lives_witness :
    (runTrace sampleRandom collisionTrace (init sampleCanvas)).gameState = Phase.gameOver ∧
    (runTrace sampleRandom collisionTrace (init sampleCanvas)).lives = 0 ∧
    ((runTrace sampleRandom collisionTrace (init sampleCanvas)).gameState = Phase.gameOver ↔
      (runTrace sampleRandom collisionTrace (init sampleCanvas)).lives ≤ 0) :=
  ⟨by decide!, by decide!,
    (gameOver_iff_no_lives sampleRandom sampleCanvas _
      (reachableBy_runTrace sampleRandom _ _ collisionTrace _ (fun _ _ => trivial)
        ReachableBy.start)).1⟩

/-- C13: the tick goes on after the exit scan has ended the game.  With one
life left, the first enemy crossing the bottom edge triggers gameOver (lives 0,
score 90, level 1, one bullet, no particles); the rest of the same tick still
takes another life for the third enemy (lives -1), resolves the bullet against
the second enemy (score 100, bullet and enemy removed, 8 particles) and raises
the level to 2. -/
theorem update_continues_after_gameOver :
    gameOverMidTickGame.gameState = Phase.playing ∧
    (updateEnemies (updateBullets (updatePlayer gameOverMidTickGame))).lives ≤ 0 ∧
    (updateEnemiesFilter [sampleEnemy 200 600 1]
        (updateBullets (updatePlayer gameOverMidTickGame))).2.gameState = Phase.gameOver ∧
    (updateEnemiesFilter [sampleEnemy 200 600 1]
        (updateBullets (updatePlayer gameOverMidTickGame))).2.lives = 0 ∧
    (updateEnemiesFilter [sampleEnemy 200 600 1]
        (updateBullets (updatePlayer gameOverMidTickGame))).2.score = 90 ∧
    (updateEnemiesFilter [sampleEnemy 200 600 1]
        (updateBullets (updatePlayer gameOverMidTickGame))).2.level = 1 ∧
    (updateEnemiesFilter [sampleEnemy 200 600 1]
        (updateBullets (updatePlayer gameOverMidTickGame))).2.bullets.length = 1 ∧
    (updateEnemiesFilter [sampleEnemy 200 600 1]
        (updateBullets (updatePlayer gameOverMidTickGame))).2.particles.length = 0 ∧
    (update sampleRandom gameOverMidTickGame).lives = -1 ∧
    (update sampleRandom gameOverMidTickGame).score = 100 ∧
    (update sampleRandom gameOverMidTickGame).level = 2 ∧
    (update sampleRandom gameOverMidTickGame).bullets.length = 0 ∧
    (update sampleRandom gameOverMidTickGame).enemies.length = 0 ∧
    (update sampleRandom gameOverMidTickGame).particles.length = 8 := by
  decide!

/-- C14, as stated, fails: a bullet whose new y equals -height (here -10) is
removed although its new y is not below -height. -/
theorem updateBullets_removes_edge_bullet :
    edgeBulletGame.bullets =
      [{ x := 148, y := -2, width := 4, height := 10, speed := 8,
         color := Color.hex "#00ff00" }] ∧
    ¬ ((-2 : ℚ) - 8 < -10) ∧
    (updateBullets edgeBulletGame).bullets = [] := by
  refine ⟨rfl, by norm_num, ?_⟩
  simp [edgeBulletGame, init, createPlayer, updateBullets]
  norm_num

/-- C14, amended: `updateBullets` subtracts each bullet's speed from its y and
removes a bullet if and only if its new y satisfies y <= -height; the bullets
kept (new y > -height) stay in their original order, and nothing but the
bullet store changes. -/
theorem updateBullets_exit_top (g : SpaceDefenderGame) :
    (updateBullets g).bullets =
      (g.bullets.map fun bullet => ({ bullet with y := bullet.y - bullet.speed } : Bullet)).filter
        (fun bullet => !decide (bullet.y ≤ -bullet.height)) ∧
    (∀ bullet : Bullet, bullet ∈ (updateBullets g).bullets ↔
      (∃ old : Bullet, old ∈ g.bullets ∧
        bullet = { old with y := old.y - old.speed }) ∧ ¬ bullet.y ≤ -bullet.height) ∧
    (updateBullets g).bullets.Sublist
      (g.bullets.map fun bullet => ({ bullet with y := bullet.y - bullet.speed } : Bullet)) ∧
    updateBullets g = { g with bullets := (updateBullets g).bullets } := by
  have h : (updateBullets g).bullets =
      (g.bullets.map fun bullet => ({ bullet with y := bullet.y - bullet.speed } : Bullet)).filter
        (fun bullet => !decide (bullet.y ≤ -bullet.height)) := by
    simp only [updateBullets]
    congr 1
    funext bullet
    by_cases hb : bullet.y ≤ -bullet.height
    · simp [hb, not_lt.mpr hb]
    · simp [hb, not_le.mp hb]
  refine ⟨h, ?_, ?_, rfl⟩
  · intro bullet
    rw [h]
    simp only [List.mem_filter, List.mem_map, Bool.not_eq_true', decide_eq_false_iff_not]
    constructor
    · rintro ⟨⟨old, ho, rfl⟩, hy⟩
      exact ⟨⟨old, ho, rfl⟩, hy⟩
    · rintro ⟨⟨old, ho, rfl⟩, hy⟩
      exact ⟨⟨old, ho, rfl⟩, hy⟩
  · rw [h]
    exact List.filter_sublist _

/-- C15, as stated, fails: on a canvas 800 wide with every draw equal to 1/2
the spawned enemy has y = -40, which is not -height = -30. -/
theorem spawnCallback_enemy_above_by_forty :
    40 ≤ freshGame.canvas.width ∧
    (∀ n : ℕ, 0 ≤ sampleRandom n ∧ sampleRandom n < 1) ∧
    ∃ enemy : Enemy, (spawnCallback sampleRandom freshGame).enemies = freshGame.enemies ++ [enemy] ∧
      enemy.y = -40 ∧ enemy.height = 30 ∧ enemy.y ≠ -enemy.height := by
  refine ⟨by simp [freshGame, init, createPlayer]; norm_num, fun n => by simp [sampleRandom]; norm_num, ?_⟩
  refine ⟨_, by simp [spawnCallback, freshGame, init, createPlayer]; rfl, rfl, rfl, ?_⟩
  norm_num

/-- C15, amended: while playing, on a canvas at least 40 wide and with draws in
[0,1), the spawner appends exactly one enemy with 0 <= x <= canvasWidth - width,
y = -40 (width 40, height 30, so its bottom edge is 10 above the canvas),
health = 1 and speed = (1 + r) * gameSpeed for some r in [0, 2). -/
theorem spawnCallback_enemy (rnd : ℕ → ℚ) (g : SpaceDefenderGame)
    (hplay : g.gameState = Phase.playing) (hw : 40 ≤ g.canvas.width)
    (hr : ∀ n : ℕ, 0 ≤ rnd n ∧ rnd n < 1) :
    ∃ enemy : Enemy,
      spawnCallback rnd g =
        { g with enemies := g.enemies ++ [enemy], randomCalls := g.randomCalls + 3 } ∧
      0 ≤ enemy.x ∧ enemy.x ≤ g.canvas.width - enemy.width ∧
      enemy.y = -40 ∧ enemy.width = 40 ∧ enemy.height = 30 ∧
      enemy.y + enemy.height = -10 ∧
      enemy.health = 1 ∧
      ∃ r : ℚ, 0 ≤ r ∧ r < 2 ∧ enemy.speed = (1 + r) * g.gameSpeed := by
  have h0 := hr g.randomCalls
  have h1 := hr (g.randomCalls + 1)
  refine ⟨_, by simp only [spawnCallback, hplay, if_true]; rfl, ?_, ?_, rfl, rfl, rfl, by norm_num,
    rfl, rnd (g.randomCalls + 1) * 2, by linarith, by linarith, rfl⟩
  · show 0 ≤ rnd g.randomCalls * (g.canvas.width - 40)
    exact mul_nonneg h0.1 (by linarith)
  · show rnd g.randomCalls * (g.canvas.width - 40) ≤ g.canvas.width - 40
    have : 0 ≤ g.canvas.width - 40 := by linarith
    nlinarith [h0.1, h0.2]

/-- C15, amended, instance: the fresh session with every draw equal to 1/2. -/
theorem spawnCallback_enemy_witness :
    ∃ enemy : Enemy,
      spawnCallback sampleRandom freshGame =
        { freshGame with
          enemies := freshGame.enemies ++ [enemy]
          randomCalls := freshGame.randomCalls + 3 } ∧
      0 ≤ enemy.x ∧ enemy.x ≤ freshGame.canvas.width - enemy.width ∧
      enemy.y = -40 ∧ enemy.width = 40 ∧ enemy.height = 30 ∧
      enemy.y + enemy.height = -10 ∧
      enemy.health = 1 ∧
      ∃ r : ℚ, 0 ≤ r ∧ r < 2 ∧ enemy.speed = (1 + r) * freshGame.gameSpeed :=
  spawnCallback_enemy sampleRandom freshGame rfl
    (by simp [freshGame, init, createPlayer]; norm_num)
    (fun n => by simp [sampleRandom]; norm_num)

/-- C16: the spawn delay is max(500 - 50 * level, 200); for level >= 1 it lies
between 200 and 450, it is non-increasing in the level, strictly decreasing
over levels 1 to 6, and equal to 200 from level 6 on. -/
theorem spawnRate_bounds :
    (∀ level : ℤ, spawnRate level = max (500 - 50 * level) 200) ∧
    (∀ level : ℤ, 1 ≤ level → 200 ≤ spawnRate level ∧ spawnRate level ≤ 450) ∧
    (∀ a b : ℤ, a ≤ b → spawnRate b ≤ spawnRate a) ∧
    (∀ a b : ℤ, 1 ≤ a → a < b → b ≤ 6 → spawnRate b < spawnRate a) ∧
    (∀ level : ℤ, 6 ≤ level → spawnRate level = 200) := by
  refine ⟨?_, ?_, ?_, ?_, ?_⟩
  · intro level; unfold spawnRate; ring_nf
  · intro level h
    unfold spawnRate
    constructor
    · exact le_max_right _ _
    · exact max_le (by omega) (by omega)
  · intro a b h
    unfold spawnRate
    exact max_le_max (by omega) (le_refl _)
  · intro a b ha hab hb
    unfold spawnRate
    rw [max_eq_left (by omega), max_eq_left (by omega)]
    omega
  · intro level h
    unfold spawnRate
    exact max_eq_right (by omega)

/-- C16, instances: levels 1, 6 and 7. -/
theorem spawnRate_bounds_witness :
    spawnRate 6 < spawnRate 1 ∧ spawnRate 7 = 200 ∧ spawnRate 1 ≤ 450 :=
  ⟨spawnRate_bounds.2.2.2.1 1 6 (by decide) (by decide) (by decide),
    spawnRate_bounds.2.2.2.2 7 (by decide),
    (spawnRate_bounds.2.1 1 (by decide)).2⟩

/-- C17: in every reachable state each particle in the store has
1 <= life <= maxLife and alpha = life / maxLife (and a whole-number life);
`createExplosion` appends 8 particles with life = maxLife = 30 and alpha = 1 at
the given point; `updateParticles` moves each particle by (vx, vy), lowers its
life by 1, recomputes alpha and removes exactly the particles whose new life is
<= 0; and it preserves the invariant. -/
theorem particle_store_invariant (rnd : ℕ → ℚ) (canvas : Canvas) (g : SpaceDefenderGame)
    (h : Reachable rnd canvas g) :
    (∀ p ∈ g.particles,
      1 ≤ p.life ∧ p.life ≤ p.maxLife ∧ p.alpha = p.life / p.maxLife ∧
        ∃ n : ℕ, p.life = n) ∧
    (∀ (x y : ℚ) (s : SpaceDefenderGame), ∃ ps : List Particle, ps.length = 8 ∧
      (createExplosion rnd x y s).particles = s.particles ++ ps ∧
      ∀ p ∈ ps, p.life = 30 ∧ p.maxLife = 30 ∧ p.alpha = 1 ∧ p.x = x ∧ p.y = y) ∧
    (∀ s : SpaceDefenderGame,
      (updateParticles s).particles =
        (s.particles.map fun p =>
          ({ p with
             x := p.x + p.vx
             y := p.y + p.vy
             life := p.life - 1
             alpha := (p.life - 1) / p.maxLife } : Particle)).filter
          (fun p => !decide (p.life ≤ 0))) ∧
    (∀ s : SpaceDefenderGame, (∀ p ∈ s.particles, ParticleInv p) →
      ∀ p ∈ (updateParticles s).particles, ParticleInv p) := by
  refine ⟨?_, ?_, ?_, fun s hs => updateParticles_allInv s hs⟩
  · exact reachableBy_induction rnd _ _ (fun s => ∀ p ∈ s.particles, ParticleInv p)
      (by intro p hp; simp [init, createPlayer] at hp)
      (fun a s _ hs => perform_allInv rnd a s hs) g h
  · intro x y s
    obtain ⟨ps, hlen, hall, hps⟩ := createExplosionLoop_particles rnd x y 8 s
    refine ⟨ps, hlen, hps, fun p hp => ?_⟩
    obtain ⟨c, rfl⟩ := hall p hp
    exact ⟨rfl, rfl, rfl, rfl, rfl⟩
  · intro s
    simp only [updateParticles]
    congr 1
    funext p
    by_cases hp : p.life ≤ 0
    · simp [hp, not_lt.mpr hp]
    · simp [hp, not_le.mp hp]

/-- C17, instance: after the first hit of the sample session the store holds
the 8 particles of one explosion, all within the invariant. -/
theorem particle_store_invariant_witness :
    (runTrace sampleRandom (Action.startGame :: sessionTrace) (init sampleCanvas)).particles.length
        = 8 ∧
    ∀ p ∈ (runTrace sampleRandom (Action.startGame :: sessionTrace)
        (init sampleCanvas)).particles,
      1 ≤ p.life ∧ p.life ≤ p.maxLife ∧ p.alpha = p.life / p.maxLife ∧ ∃ n : ℕ, p.life = n :=
  ⟨by decide!,
    (particle_store_invariant sampleRandom sampleCanvas _
      (reachableBy_runTrace sampleRandom _ _ (Action.startGame :: sessionTrace) _
        (fun _ _ => trivial) ReachableBy.start)).1⟩

/-- C18: after the bullet-enemy pass no bullet left in the store overlaps any
enemy left in the store. -/
theorem bulletEnemyCollisions_complete (rnd : ℕ → ℚ) (g : SpaceDefenderGame) :
    ∀ bullet ∈ (bulletEnemyCollisions rnd g).bullets,
      ∀ enemy ∈ (bulletEnemyCollisions rnd g).enemies,
        isColliding bullet.toRect enemy.toRect = false := by
  obtain ⟨k, ps, _, _, _, h3⟩ := bulletEnemyOuter_spec rnd g.bullets.length g (le_refl _)
  simp only [List.take_length, List.drop_length] at h3
  have hb : (bulletEnemyCollisions rnd g).bullets
      = (g.bullets.foldr resolveStep ([], g.enemies)).1 := by
    rw [bulletEnemyCollisions, h3]
  have he : (bulletEnemyCollisions rnd g).enemies
      = (g.bullets.foldr resolveStep ([], g.enemies)).2 := by
    rw [bulletEnemyCollisions, h3]
  rw [hb, he]
  exact resolve_no_overlap g.bullets g.enemies

/-- C18, instance: a bullet and a distant enemy both survive the pass. -/
theorem bulletEnemyCollisions_complete_witness :
    isColliding
      ({ x := 10, y := 110, width := 4, height := 10, speed := 8,
         color := Color.hex "#00ff00" } : Bullet).toRect
      (sampleEnemy 200 100 1).toRect = false :=
  bulletEnemyCollisions_complete sampleRandom missGame _ (by decide!) _ (by decide!)

/-- C19: in every state of a session (reached from a `startGame` by actions
other than start and restart) the score is a non-negative multiple of 10, the
level is at least 1 and 100 * (level - 1) <= score; and in no state reached
later in the same session is the score or the level lower. -/
theorem level_never_outruns_score (rnd : ℕ → ℚ) (g0 g : SpaceDefenderGame)
    (h : InSession rnd g0 g) :
    ((∃ n : ℕ, g.score = 10 * n) ∧ 1 ≤ g.level ∧ 100 * (g.level - 1) ≤ g.score) ∧
    (∀ g' : SpaceDefenderGame,
      ReachableBy rnd (fun a => a.startsSession = false) g g' →
        g.score ≤ g'.score ∧ g.level ≤ g'.level) := by
  constructor
  · exact reachableBy_induction rnd _ _ ScoreInv (startGame_scoreInv rnd g0)
      (fun a g1 ha hg1 => scoreStep_inv g1 _ hg1 (perform_scoreStep rnd a g1 ha)) g h
  · intro g' hg'
    exact reachableBy_induction rnd _ g (fun x => g.score ≤ x.score ∧ g.level ≤ x.level)
      ⟨le_refl _, le_refl _⟩
      (fun a g1 ha hg1 =>
        have hm := scoreStep_mono g1 _ (perform_scoreStep rnd a g1 ha)
        ⟨hg1.1.trans hm.1, hg1.2.trans hm.2⟩) g' hg'

/-- C19, instance: the sample session after its first hit (score 10, level 1). -/
theorem level_never_outruns_score_witness :
    (runTrace sampleRandom sessionTrace (startGame sampleRandom (init sampleCanvas))).score = 10 ∧
    (runTrace sampleRandom sessionTrace (startGame sampleRandom (init sampleCanvas))).level = 1 ∧
    100 * ((runTrace sampleRandom sessionTrace
        (startGame sampleRandom (init sampleCanvas))).level - 1) ≤
      (runTrace sampleRandom sessionTrace (startGame sampleRandom (init sampleCanvas))).score :=
  ⟨by decide!, by decide!,
    (level_never_outruns_score sampleRandom (init sampleCanvas) _
      (reachableBy_runTrace sampleRandom _ _ sessionTrace _ (by decide!)
        ReachableBy.start)).1.2.2⟩

/-- C20: `isColliding` is symmetric in its two arguments, for rectangles of any
position and size. -/
theorem isColliding_symmetric (r1 r2 : Rect) : isColliding r1 r2 = isColliding r2 r1 := by
  rw [Bool.eq_iff_iff, isColliding_true_iff, isColliding_true_iff]
  constructor <;> rintro ⟨h1, h2, h3, h4⟩ <;> exact ⟨h2, h1, h4, h3⟩

end SpaceDefender
